import Mathlib

/-!
Verification of the Hybrid Retrieval & Ranking Engine of the rag-policy-match
repository, as a shallow embedding in Lean 4.

Conventions used throughout this development:
* Python floats are modelled as rationals; all score constants in the source
  (0.7, 0.3, 1.5, ...) are exact dyadic or decimal values, so the arithmetic
  of the embedding coincides with the intent of the source and no claim below
  depends on binary rounding.
* Python lists are Lean lists; a Python dict used as a string-keyed map is an
  association list looked up from the front, mirroring insertion order.
* The stdlib call list.sort(key=lambda x: x.score, reverse=True) is a stable
  descending sort; it is modelled by List.mergeSort with the relation
  fun a b => b.score <= a.score, which is likewise stable.
* External collaborators (the jieba tokenizer, the regular-expression engine,
  the cross-encoder model, the language-model endpoint) are parameters of the
  embedded functions: each is an arbitrary total function, exactly the data
  the source consumes from them.
* Mutation of shared candidate objects is modelled functionally; each embedded
  step returns the updated list.
-/

/-! # Python string primitives

The source uses the Python operations sub in s, s.count(sub), s.lower(),
s[:n].  They are modelled over the character list of the string so that they
evaluate by kernel reduction. -/

/-- Python substring test over character lists: true when pat occurs as a
contiguous sublist (in particular an empty pat always occurs). -/
def containsSub (pat : List Char) : List Char → Bool
  | [] => pat.isEmpty
  | c :: t => pat.isPrefixOf (c :: t) || containsSub pat t

/-- Python expression pat in s. -/
def pyContains (s pat : String) : Bool := containsSub pat.toList s.toList

/-- Non-overlapping left-to-right occurrence counting, auxiliary loop.
The second argument counts characters still to be skipped after a match. -/
def countGo (pat : List Char) : List Char → Nat → Nat
  | [], _ => 0
  | c :: t, 0 =>
    if pat.isPrefixOf (c :: t) && !pat.isEmpty then
      1 + countGo pat t (pat.length - 1)
    else
      countGo pat t 0
  | _ :: t, k + 1 => countGo pat t k

/-- Python s.count(pat) for a non-empty pat (the source only counts keywords
of length at least two). -/
def pyCount (s pat : String) : Nat := countGo pat.toList s.toList 0

/-- Python s.lower().  Chinese characters are unaffected; ASCII letters are
lowered, which is all the source relies on.  Expressed over the character
list so that it evaluates by kernel reduction. -/
def pyLower (s : String) : String := String.mk (s.toList.map Char.toLower)

/-- The stable descending sort list.sort(key=lambda x: x.score, reverse=True),
expressed for any score projection. -/
def pySortDescBy {α : Type} (score : α → ℚ) (l : List α) : List α :=
  l.mergeSort (fun a b => decide (score b ≤ score a))

/-! # Data model (models.py / reranker.py / query_understanding.py)

RetrievalResult carries an untyped metadata dict in the source; the embedding
models exactly the keys the retrieval core reads or writes, each as an
optional field (absent key = none). -/

/-- The metadata keys of a RetrievalResult that the retrieval/ranking core
touches. -/
structure Metadata where
  retrieval_source : Option String := none
  retrieval_sources : List String := []
  original_score : Option ℚ := none
  rrf_score : Option ℚ := none
  intent_boost : Option ℚ := none
  scale_penalty : Option ℚ := none
  startup_boost : Option ℚ := none
  section_label : Option String := none
  rule_score : Option ℚ := none
  rerank_score : Option ℚ := none
  llm_rank : Option Nat := none
  rerank_stages : List (String × Nat) := []
  final_rerank_method : Option String := none
deriving DecidableEq, Repr

/-- models.RetrievalResult (the fields consumed by the retrieval core). -/
structure RetrievalResult where
  chunk_id : String
  content : String
  score : ℚ
  policy_id : String := ""
  metadata : Metadata := {}
deriving DecidableEq, Repr

/-- query_understanding.QueryIntent. -/
structure QueryIntent where
  intent_type : String
  confidence : ℚ := 0
  keywords : List String := []
deriving DecidableEq, Repr

/-- query_understanding.EntityExtraction. -/
structure EntityExtraction where
  industries : List String := []
  enterprise_scales : List String := []
  policy_types : List String := []
  regions : List String := []
  amount_requirements : List String := []
  time_requirements : List String := []
  special_conditions : List String := []
deriving DecidableEq, Repr

/-- query_understanding.QueryUnderstanding (the filters dict and the
natural-language context string are not consumed by any claim and are
omitted). -/
structure QueryUnderstanding where
  original_query : String := ""
  processed_query : String := ""
  primary_intent : QueryIntent
  secondary_intents : List QueryIntent := []
  entities : EntityExtraction := {}
  query_complexity : String := "simple"
deriving DecidableEq, Repr

/-- reranker.RerankerType. -/
inductive RerankerType where
  | CROSS_ENCODER
  | LLM_RERANK
  | RULE_BASED
  | MULTI_STAGE
deriving DecidableEq, Repr

/-- reranker.RerankResult. -/
structure RerankResult where
  reranked_results : List RetrievalResult
  rerank_scores : List ℚ := []
  method_used : String
  success : Bool := true
  error : Option String := none
deriving DecidableEq, Repr

/-! # query_understanding.IntelligentQueryProcessor._assess_complexity -/

/-- The marker list iterated by the complexity loop (Chinese markers meaning
currently / comparatively / specifically / in detail / how(colloquial) /
how). -/
def special_patterns : List String :=
  ["现阶段", "比较", "具体", "详细", "怎么", "如何"]

/-- IntelligentQueryProcessor._assess_complexity, line for line: length
bonus, entity-count bonus, secondary-intent count, then one loop iteration
per marker contained in the query, followed by the threshold classification. -/
def _assess_complexity (query : String) (entities : EntityExtraction)
    (secondary_intent_count : Nat) : String :=
  let score0 : Nat := if query.length > 50 then 1 else 0
  let total_entities : Nat :=
    entities.industries.length + entities.enterprise_scales.length +
      entities.policy_types.length + entities.amount_requirements.length
  let score1 : Nat :=
    if total_entities > 3 then score0 + 2
    else if total_entities > 1 then score0 + 1
    else score0
  let score2 : Nat := score1 + secondary_intent_count
  let score3 : Nat :=
    special_patterns.foldl (fun s p => if pyContains query p then s + 1 else s) score2
  if score3 ≥ 4 then "complex"
  else if score3 ≥ 2 then "moderate"
  else "simple"

/-! # reranker.AdvancedReranker.auto_select_reranker -/

/-- AdvancedReranker.auto_select_reranker: the candidate-count / complexity
cascade. -/
def auto_select_reranker (candidates : List RetrievalResult)
    (query_complexity : String) : RerankerType :=
  let num_candidates := candidates.length
  if num_candidates ≤ 5 then RerankerType.LLM_RERANK
  else if num_candidates ≤ 20 ∧ query_complexity = "complex" then RerankerType.MULTI_STAGE
  else if num_candidates ≤ 50 then RerankerType.CROSS_ENCODER
  else RerankerType.RULE_BASED

/-- A candidate list of a given size, used to instantiate count-dependent
claims on concrete inputs. -/
def mkCandidates (n : Nat) : List RetrievalResult :=
  (List.range n).map (fun i => { chunk_id := toString i, content := "c", score := 0 })

theorem mkCandidates_length (n : Nat) : (mkCandidates n).length = n := by
  simp [mkCandidates]

/-- Claim C7: for every query string, extracted entity set and
secondary-intent count, the complexity assessment equals the closed formula
(length > 50 contributes 1) + (entity total > 3 contributes 2, else > 1
contributes 1) + secondary-intent count + number of markers present, with
thresholds 4 for complex and 2 for moderate. -/
theorem C7_assess_complexity (query : String) (entities : EntityExtraction)
    (secondary_intent_count : Nat) :
    _assess_complexity query entities secondary_intent_count =
      (let score : Nat :=
        (if query.length > 50 then 1 else 0) +
        (if entities.industries.length + entities.enterprise_scales.length +
            entities.policy_types.length + entities.amount_requirements.length > 3 then 2
         else if entities.industries.length + entities.enterprise_scales.length +
            entities.policy_types.length + entities.amount_requirements.length > 1 then 1
         else 0) +
        secondary_intent_count +
        (special_patterns.filter (fun p => pyContains query p)).length
      if score ≥ 4 then "complex" else if score ≥ 2 then "moderate" else "simple") := by
  have hfold : ∀ (ps : List String) (s : Nat),
      ps.foldl (fun s p => if pyContains query p then s + 1 else s) s =
        s + (ps.filter (fun p => pyContains query p)).length := by
    intro ps
    induction ps with
    | nil => intro s; simp
    | cons p t ih =>
      intro s
      by_cases hp : pyContains query p
      · simp [hp, ih, Nat.add_assoc, Nat.add_comm 1]
      · simp [hp, ih]
  simp only [_assess_complexity, hfold]
  by_cases h2 : entities.industries.length + entities.enterprise_scales.length +
      entities.policy_types.length + entities.amount_requirements.length > 3
  · simp [h2]
  · by_cases h3 : entities.industries.length + entities.enterprise_scales.length +
        entities.policy_types.length + entities.amount_requirements.length > 1
    · simp [h2, h3]
    · simp [h2, h3]

/-- Claim C8: reranker auto-selection is the deterministic count/complexity
cascade: at most 5 candidates select LLM; at most 20 with a complex query
select MultiStage; at most 50 select CrossEncoder; larger counts select
RuleBased; in particular 3 candidates give LLM, 30 with moderate give
CrossEncoder and 80 give RuleBased. -/
theorem C8_auto_select (candidates : List RetrievalResult) (complexity : String) :
    (candidates.length ≤ 5 →
      auto_select_reranker candidates complexity = RerankerType.LLM_RERANK) ∧
    (5 < candidates.length → candidates.length ≤ 20 → complexity = "complex" →
      auto_select_reranker candidates complexity = RerankerType.MULTI_STAGE) ∧
    (5 < candidates.length → candidates.length ≤ 50 →
      (complexity ≠ "complex" ∨ 20 < candidates.length) →
      auto_select_reranker candidates complexity = RerankerType.CROSS_ENCODER) ∧
    (50 < candidates.length →
      auto_select_reranker candidates complexity = RerankerType.RULE_BASED) ∧
    auto_select_reranker (mkCandidates 3) "complex" = RerankerType.LLM_RERANK ∧
    auto_select_reranker (mkCandidates 30) "moderate" = RerankerType.CROSS_ENCODER ∧
    auto_select_reranker (mkCandidates 80) "moderate" = RerankerType.RULE_BASED := by
  refine ⟨?_, ?_, ?_, ?_, by decide, by decide, by decide⟩
  · intro h
    simp [auto_select_reranker, h]
  · intro h1 h2 h3
    simp only [auto_select_reranker]
    rw [if_neg (by omega), if_pos ⟨h2, h3⟩]
  · intro h1 h2 h3
    simp only [auto_select_reranker]
    rw [if_neg (by omega), if_neg ?_, if_pos h2]
    rintro ⟨hl, hc⟩
    rcases h3 with h3 | h3
    · exact h3 hc
    · omega
  · intro h
    simp only [auto_select_reranker]
    rw [if_neg (by omega), if_neg (by omega), if_neg (by omega)]

/-- Witness for C8 at a concrete input: 80 candidates select RuleBased. -/
theorem C8_auto_select_witness :
    50 < (mkCandidates 80).length ∧
    auto_select_reranker (mkCandidates 80) "moderate" = RerankerType.RULE_BASED :=
  ⟨by decide, (C8_auto_select (mkCandidates 80) "moderate").2.2.2.1 (by decide)⟩

/-! # retriever.HybridRetriever (retriever.py)

The regular-expression engine consumed by re.search is an external
collaborator; every function below that matches patterns takes it as a
parameter reSearch : pattern -> text -> Bool. -/

/-- HybridRetriever._deduplicate_results, one loop iteration: the seen set of
the source is exactly the set of chunk_ids already in the accumulator. -/
def dedupResultsStep (acc : List RetrievalResult) (r : RetrievalResult) :
    List RetrievalResult :=
  if acc.any (fun e => e.chunk_id == r.chunk_id) then acc else acc ++ [r]

/-- HybridRetriever._deduplicate_results: keep the first occurrence of each
chunk_id. -/
def _deduplicate_results (results : List RetrievalResult) : List RetrievalResult :=
  results.foldl dedupResultsStep []

/-- HybridRetriever._calculate_intent_boost: keyword-set bonuses per intent,
capped at 0.5. -/
def _calculate_intent_boost (result : RetrievalResult)
    (primary_intent : QueryIntent) : ℚ :=
  let content_lower := pyLower result.content
  let boost : ℚ :=
    if primary_intent.intent_type = "check_eligibility" then
      (if ["适用", "服务对象", "申请条件", "适用范围"].any (fun w => pyContains content_lower w)
        then (3:ℚ)/10 else 0) +
      (if ["门槛", "要求", "条件"].any (fun w => pyContains content_lower w)
        then (2:ℚ)/10 else 0)
    else if primary_intent.intent_type = "get_funding" then
      (if ["资金", "补贴", "奖励", "资助"].any (fun w => pyContains content_lower w)
        then (3:ℚ)/10 else 0) +
      (if ["万元", "支持金额", "最高"].any (fun w => pyContains content_lower w)
        then (2:ℚ)/10 else 0)
    else if primary_intent.intent_type = "get_requirements" then
      (if ["申请", "申报", "材料", "流程"].any (fun w => pyContains content_lower w)
        then (3:ℚ)/10 else 0)
    else 0
  min boost ((1:ℚ)/2)

/-- The complexity-adaptive vector/keyword weight split chosen at the top of
HybridRetriever._intelligent_fusion. -/
def fusionWeights (complexity : String) : ℚ × ℚ :=
  if complexity = "simple" then ((7:ℚ)/10, (3:ℚ)/10)
  else if complexity = "moderate" then ((6:ℚ)/10, (4:ℚ)/10)
  else ((1:ℚ)/2, (1:ℚ)/2)

/-- The rrf_scores defaultdict of _intelligent_fusion, read pointwise: the
total contribution of one ranked list to a chunk_id, with weight w and k = 60
(the enumeration rank is 0-based, so the divisor is 60 + rank + 1). -/
def rrfContribution (w : ℚ) (l : List RetrievalResult) (cid : String) : ℚ :=
  (l.enum.map (fun p => if p.2.chunk_id == cid then w / (60 + p.1 + 1) else 0)).sum

/-- HybridRetriever._intelligent_fusion: complexity weights, first-occurrence
dedup, RRF accumulation over both ranked lists, re-scoring with
0.5·RRF + 0.3·original + 0.2·intentBoost, descending sort, truncation.
The try/except around the body cannot fire: every operation inside is total. -/
def _intelligent_fusion (vector_results keyword_results : List RetrievalResult)
    (query_understanding : QueryUnderstanding) (top_k : Nat) : List RetrievalResult :=
  let vw := (fusionWeights query_understanding.query_complexity).1
  let kw := (fusionWeights query_understanding.query_complexity).2
  let unique_results := _deduplicate_results (vector_results ++ keyword_results)
  let updated := unique_results.map (fun r =>
    let original_score := r.score
    let rrf_score := rrfContribution vw vector_results r.chunk_id +
      rrfContribution kw keyword_results r.chunk_id
    let intent_boost := _calculate_intent_boost r query_understanding.primary_intent
    { r with
      score := (1:ℚ)/2 * rrf_score + (3:ℚ)/10 * original_score + (2:ℚ)/10 * intent_boost,
      metadata := { r.metadata with
        original_score := some original_score,
        rrf_score := some rrf_score,
        intent_boost := some intent_boost } })
  (pySortDescBy (fun r => r.score) updated).take top_k

/-- The strong exclusion regexes of _smart_enterprise_scale_filter
(registered / founded three-or-more years ago, revenue or sales in the tens
of millions, listed company, above-scale enterprise). -/
def strong_exclude_patterns : List String :=
  ["注册.\x7b0,10\x7d[三四五六七八九十]年以上",
   "成立.\x7b0,10\x7d[三四五六七八九十]年以上",
   "营业收入.\x7b0,20\x7d[千万亿]",
   "年销售收入.\x7b0,20\x7d[千万亿]",
   "上市公司",
   "规模以上企业"]

/-- The soft exclusion regexes (large / medium / mature enterprise). -/
def soft_exclude_patterns : List String := ["大型企业", "中型企业", "成熟企业"]

/-- The startup-friendly regexes. -/
def startup_friendly_patterns : List String :=
  ["初创|创业|新成立|起步", "孵化|众创|创新创业", "低门槛|无需|不限"]

/-- Whether some strong exclusion pattern matches the lowered content. -/
def strongExcludeMatch (reSearch : String → String → Bool) (r : RetrievalResult) : Bool :=
  strong_exclude_patterns.any (fun p => reSearch p (pyLower r.content))

/-- Whether some soft exclusion pattern matches the lowered content. -/
def softExcludeMatch (reSearch : String → String → Bool) (r : RetrievalResult) : Bool :=
  soft_exclude_patterns.any (fun p => reSearch p (pyLower r.content))

/-- Whether some startup-friendly pattern matches the lowered content. -/
def startupFriendlyMatch (reSearch : String → String → Bool) (r : RetrievalResult) : Bool :=
  startup_friendly_patterns.any (fun p => reSearch p (pyLower r.content))

/-- One iteration of the _smart_enterprise_scale_filter loop: a strong match
drops the candidate; otherwise at most one soft penalty (×(1−0.3), the loop
breaks after the first matching pattern) and at most one startup boost
(×1.2) apply, and the candidate is kept. -/
def scaleFilterStep (reSearch : String → String → Bool) (r : RetrievalResult) :
    Option RetrievalResult :=
  if strongExcludeMatch reSearch r then none
  else
    let r1 :=
      if softExcludeMatch reSearch r then
        { r with score := r.score * (1 - (3:ℚ)/10),
                 metadata := { r.metadata with scale_penalty := some ((3:ℚ)/10) } }
      else r
    let r2 :=
      if startupFriendlyMatch reSearch r then
        { r1 with score := r1.score * ((12:ℚ)/10),
                  metadata := { r1.metadata with startup_boost := some ((2:ℚ)/10) } }
      else r1
    some r2

/-- HybridRetriever._smart_enterprise_scale_filter: a no-op unless the target
scale is the startup scale; otherwise the loop keeps, in order, the
transformed survivors. -/
def _smart_enterprise_scale_filter (reSearch : String → String → Bool)
    (results : List RetrievalResult) (target_scale : String) : List RetrievalResult :=
  if target_scale ≠ "初创企业" then results
  else results.filterMap (scaleFilterStep reSearch)

theorem scaleFilterStep_content {reSearch : String → String → Bool}
    {r e : RetrievalResult} (h : scaleFilterStep reSearch r = some e) :
    e.content = r.content := by
  unfold scaleFilterStep at h
  split at h
  · exact absurd h (by simp)
  · split at h <;> split at h <;>
      (simp only [Option.some.injEq] at h; rw [← h])

theorem scaleFilterStep_not_strong {reSearch : String → String → Bool}
    {r e : RetrievalResult} (h : scaleFilterStep reSearch r = some e) :
    strongExcludeMatch reSearch r = false := by
  unfold scaleFilterStep at h
  split at h
  · exact absurd h (by simp)
  · simp_all

/-- Claim C6: with the detected scale startup, every candidate matching a
strong disqualifying pattern is absent from the filter output; a candidate
matching only a borderline (soft) pattern is kept with its score multiplied
by 0.7; a candidate matching only startup-friendly language is kept with its
score multiplied by 1.2. -/
theorem C6_scale_filter (reSearch : String → String → Bool)
    (results : List RetrievalResult) :
    (∀ e ∈ _smart_enterprise_scale_filter reSearch results "初创企业",
      strongExcludeMatch reSearch e = false) ∧
    (∀ r ∈ results, strongExcludeMatch reSearch r = false →
      softExcludeMatch reSearch r = true → startupFriendlyMatch reSearch r = false →
      { r with score := r.score * ((7:ℚ)/10),
               metadata := { r.metadata with scale_penalty := some ((3:ℚ)/10) } } ∈
        _smart_enterprise_scale_filter reSearch results "初创企业") ∧
    (∀ r ∈ results, strongExcludeMatch reSearch r = false →
      softExcludeMatch reSearch r = false → startupFriendlyMatch reSearch r = true →
      { r with score := r.score * ((12:ℚ)/10),
               metadata := { r.metadata with startup_boost := some ((2:ℚ)/10) } } ∈
        _smart_enterprise_scale_filter reSearch results "初创企业") := by
  have hunfold : _smart_enterprise_scale_filter reSearch results "初创企业" =
      results.filterMap (scaleFilterStep reSearch) := by
    simp [_smart_enterprise_scale_filter]
  refine ⟨?_, ?_, ?_⟩
  · intro e he
    rw [hunfold] at he
    obtain ⟨r, hr, hstep⟩ := List.mem_filterMap.mp he
    have hc := scaleFilterStep_content hstep
    have hs := scaleFilterStep_not_strong hstep
    unfold strongExcludeMatch at hs ⊢
    rw [hc]
    exact hs
  · intro r hr h1 h2 h3
    rw [hunfold]
    refine List.mem_filterMap.mpr ⟨r, hr, ?_⟩
    have : (1 - (3:ℚ)/10) = (7:ℚ)/10 := by norm_num
    simp [scaleFilterStep, h1, h2, h3, this]
  · intro r hr h1 h2 h3
    rw [hunfold]
    refine List.mem_filterMap.mpr ⟨r, hr, ?_⟩
    simp [scaleFilterStep, h1, h2, h3]

/-- A concrete regular-expression oracle for the C6 witness: it reports a
match exactly for the three listed pattern/content pairs. -/
def scaleWitnessMatcher : String → String → Bool := fun p c =>
  (p == "上市公司" && c == "上市公司") || (p == "大型企业" && c == "big") ||
    (p == "初创|创业|新成立|起步" && c == "startupish")

/-- C6 witness inputs: one strongly excluded, one soft-penalised and one
startup-boosted candidate. -/
def scaleWitnessInput : List RetrievalResult :=
  [{ chunk_id := "s", content := "上市公司", score := 1 },
   { chunk_id := "b", content := "big", score := 1 },
   { chunk_id := "f", content := "startupish", score := 1 }]

/-- Witness for C6: on the concrete input the listed-company candidate is
dropped, the large-enterprise candidate keeps 0.7 of its score, and the
startup-friendly candidate keeps 1.2 of its score. -/
theorem C6_scale_filter_witness :
    (_smart_enterprise_scale_filter scaleWitnessMatcher scaleWitnessInput "初创企业").map
        (fun r => r.chunk_id) = ["b", "f"] ∧
    ({ chunk_id := "b", content := "big", score := 1 * ((7:ℚ)/10),
       metadata := { scale_penalty := some ((3:ℚ)/10) } } : RetrievalResult) ∈
      _smart_enterprise_scale_filter scaleWitnessMatcher scaleWitnessInput "初创企业" ∧
    ({ chunk_id := "f", content := "startupish", score := 1 * ((12:ℚ)/10),
       metadata := { startup_boost := some ((2:ℚ)/10) } } : RetrievalResult) ∈
      _smart_enterprise_scale_filter scaleWitnessMatcher scaleWitnessInput "初创企业" := by
  refine ⟨by decide, ?_, ?_⟩
  · exact (C6_scale_filter scaleWitnessMatcher scaleWitnessInput).2.1
      { chunk_id := "b", content := "big", score := 1 } (by decide)
      (by decide) (by decide) (by decide)
  · exact (C6_scale_filter scaleWitnessMatcher scaleWitnessInput).2.2
      { chunk_id := "f", content := "startupish", score := 1 } (by decide)
      (by decide) (by decide) (by decide)

theorem intent_boost_le_half (r : RetrievalResult) (i : QueryIntent) :
    _calculate_intent_boost r i ≤ (1:ℚ)/2 := by
  unfold _calculate_intent_boost
  exact min_le_right _ _

theorem dedup_results_go (rest : List RetrievalResult) :
    ∀ (processed acc : List RetrievalResult),
      (∀ u ∈ acc, processed.find? (fun r => r.chunk_id == u.chunk_id) = some u) →
      (∀ cid : String, (∃ e ∈ acc, e.chunk_id = cid) ↔ ∃ x ∈ processed, x.chunk_id = cid) →
      ∀ u ∈ rest.foldl dedupResultsStep acc,
        (processed ++ rest).find? (fun r => r.chunk_id == u.chunk_id) = some u := by
  induction rest with
  | nil =>
    intro processed acc h1 _ u hu
    simpa using h1 u (by simpa using hu)
  | cons r t ih =>
    intro processed acc h1 h2 u hu
    rw [List.foldl_cons] at hu
    have hnew1 : ∀ v ∈ dedupResultsStep acc r,
        (processed ++ [r]).find? (fun x => x.chunk_id == v.chunk_id) = some v := by
      intro v hv
      unfold dedupResultsStep at hv
      split at hv
      case isTrue hin =>
        rw [List.find?_append, h1 v hv]
        rfl
      case isFalse hin =>
        rcases List.mem_append.mp hv with hv | hv
        · rw [List.find?_append, h1 v hv]
          rfl
        · have hv : v = r := by simpa using hv
          subst hv
          have hnone : processed.find? (fun x => x.chunk_id == v.chunk_id) = none := by
            rw [List.find?_eq_none]
            intro x hx hbe
            refine hin ?_
            rw [List.any_eq_true]
            obtain ⟨e, he, hee⟩ := (h2 v.chunk_id).mpr ⟨x, hx, by simpa using hbe⟩
            exact ⟨e, he, by simpa using hee⟩
          rw [List.find?_append, hnone]
          simp
    have hnew2 : ∀ cid : String, (∃ e ∈ dedupResultsStep acc r, e.chunk_id = cid) ↔
        ∃ x ∈ processed ++ [r], x.chunk_id = cid := by
      intro cid
      unfold dedupResultsStep
      split
      case isTrue hin =>
        rw [h2 cid]
        constructor
        · rintro ⟨x, hx, he⟩
          exact ⟨x, List.mem_append_left _ hx, he⟩
        · rintro ⟨x, hx, he⟩
          rcases List.mem_append.mp hx with hx | hx
          · exact ⟨x, hx, he⟩
          · have hx : x = r := by simpa using hx
            subst hx
            rw [List.any_eq_true] at hin
            obtain ⟨e, he2, hee⟩ := hin
            refine (h2 cid).mp ⟨e, he2, ?_⟩
            rw [← he]
            simpa using hee
      case isFalse hin =>
        constructor
        · rintro ⟨e, he, hee⟩
          rcases List.mem_append.mp he with he | he
          · obtain ⟨x, hx, hxe⟩ := (h2 cid).mp ⟨e, he, hee⟩
            exact ⟨x, List.mem_append_left _ hx, hxe⟩
          · have he : e = r := by simpa using he
            subst he
            exact ⟨e, List.mem_append_right _ (by simp), hee⟩
        · rintro ⟨x, hx, hxe⟩
          rcases List.mem_append.mp hx with hx | hx
          · obtain ⟨e, he, hee⟩ := (h2 cid).mpr ⟨x, hx, hxe⟩
            exact ⟨e, List.mem_append_left _ he, hee⟩
          · have hx : x = r := by simpa using hx
            subst hx
            exact ⟨x, List.mem_append_right _ (by simp), hxe⟩
    have := ih (processed ++ [r]) (dedupResultsStep acc r) hnew1 hnew2 u hu
    simpa [List.append_assoc] using this

theorem mem_deduplicate_results_find (results : List RetrievalResult) :
    ∀ u ∈ _deduplicate_results results,
      results.find? (fun r => r.chunk_id == u.chunk_id) = some u := by
  have h := dedup_results_go results [] [] (by simp) (by simp)
  intro u hu
  simpa using h u hu

/-- Claim C2: every candidate produced by the fusion carries the final score
0.5·RRF + 0.3·originalScore + 0.2·intentBoost, where the RRF contribution of
each ranked list uses k = 60, the vector/keyword weights are 0.7/0.3 for
simple, 0.6/0.4 for moderate and 0.5/0.5 for complex queries, the original
score is the score of the first input occurrence of that chunk_id, and the
intent boost is capped at 0.5. -/
theorem C2_intelligent_fusion (vs ks : List RetrievalResult)
    (qu : QueryUnderstanding) (top_k : Nat) :
    (∀ e ∈ _intelligent_fusion vs ks qu top_k,
      ∃ d, (vs ++ ks).find? (fun r => r.chunk_id == e.chunk_id) = some d ∧
        e.score = (1:ℚ)/2 *
            (rrfContribution (fusionWeights qu.query_complexity).1 vs e.chunk_id +
              rrfContribution (fusionWeights qu.query_complexity).2 ks e.chunk_id) +
          (3:ℚ)/10 * d.score +
          (2:ℚ)/10 * _calculate_intent_boost d qu.primary_intent ∧
        _calculate_intent_boost d qu.primary_intent ≤ (1:ℚ)/2) ∧
    fusionWeights "simple" = ((7:ℚ)/10, (3:ℚ)/10) ∧
    fusionWeights "moderate" = ((6:ℚ)/10, (4:ℚ)/10) ∧
    fusionWeights "complex" = ((1:ℚ)/2, (1:ℚ)/2) := by
  refine ⟨?_, by unfold fusionWeights; rw [if_pos rfl],
    by unfold fusionWeights; rw [if_neg (by decide), if_pos rfl],
    by unfold fusionWeights; rw [if_neg (by decide), if_neg (by decide)]⟩
  intro e he
  simp only [_intelligent_fusion, pySortDescBy] at he
  have he2 := List.mem_of_mem_take he
  have he3 := List.mem_mergeSort.mp he2
  obtain ⟨u, hu, he4⟩ := List.mem_map.mp he3
  subst he4
  refine ⟨u, ?_, by simp, intent_boost_le_half u qu.primary_intent⟩
  simpa using mem_deduplicate_results_find (vs ++ ks) u hu

/-- C2 witness input: one vector-channel candidate. -/
def fusionWitnessInput : RetrievalResult := { chunk_id := "a", content := "x", score := 1 }

/-- C2 witness query understanding: a simple query with an intent that earns
no boost. -/
def fusionWitnessQU : QueryUnderstanding :=
  { primary_intent := { intent_type := "other" }, query_complexity := "simple" }

/-- The single fused candidate produced from the C2 witness input:
score = 0.5·(0.7/61) + 0.3·1 + 0.2·0 = 373/1220. -/
def fusionWitnessOutput : RetrievalResult :=
  { chunk_id := "a", content := "x", score := 373/1220,
    metadata := { original_score := some 1, rrf_score := some (7/610), intent_boost := some 0 } }

theorem intent_boost_other (r : RetrievalResult) (i : QueryIntent)
    (h1 : i.intent_type ≠ "check_eligibility") (h2 : i.intent_type ≠ "get_funding")
    (h3 : i.intent_type ≠ "get_requirements") : _calculate_intent_boost r i = 0 := by
  unfold _calculate_intent_boost
  simp only [if_neg h1, if_neg h2, if_neg h3]
  exact min_eq_left (by norm_num)

theorem fusionWitnessEval :
    _intelligent_fusion [fusionWitnessInput] [] fusionWitnessQU 5 = [fusionWitnessOutput] := by
  have hw : fusionWeights "simple" = ((7:ℚ)/10, (3:ℚ)/10) := by
    unfold fusionWeights
    rw [if_pos rfl]
  have hb : _calculate_intent_boost fusionWitnessInput fusionWitnessQU.primary_intent = 0 :=
    intent_boost_other _ _ (by decide) (by decide) (by decide)
  have hr1 : rrfContribution ((7:ℚ)/10) [fusionWitnessInput] "a" = 7/610 := by
    simp [rrfContribution, fusionWitnessInput]
    norm_num
  have hr2 : rrfContribution ((3:ℚ)/10) ([] : List RetrievalResult) "a" = 0 := by
    simp [rrfContribution]
  have hd : _deduplicate_results ([fusionWitnessInput] ++ []) = [fusionWitnessInput] := by
    simp [_deduplicate_results, dedupResultsStep]
  simp only [_intelligent_fusion, pySortDescBy, hd, List.map_cons,
    List.map_nil, List.mergeSort_singleton,
    show fusionWitnessQU.query_complexity = "simple" from rfl, hw,
    show fusionWitnessInput.chunk_id = "a" from rfl,
    show fusionWitnessInput.score = 1 from rfl,
    show fusionWitnessInput.metadata = {} from rfl]
  rw [List.take_of_length_le (by simp)]
  rw [hb, hr1, hr2]
  simp only [fusionWitnessOutput, List.cons.injEq, and_true, RetrievalResult.mk.injEq,
    Metadata.mk.injEq, show fusionWitnessInput.content = "x" from rfl,
    show fusionWitnessInput.policy_id = "" from rfl]
  norm_num

/-- Witness for C2 at a concrete input: the fused score of the single
candidate satisfies the fusion formula. -/
theorem C2_intelligent_fusion_witness :
    fusionWitnessOutput ∈ _intelligent_fusion [fusionWitnessInput] [] fusionWitnessQU 5 ∧
    fusionWitnessOutput.score =
      (1:ℚ)/2 *
          (rrfContribution (fusionWeights fusionWitnessQU.query_complexity).1
              [fusionWitnessInput] fusionWitnessOutput.chunk_id +
            rrfContribution (fusionWeights fusionWitnessQU.query_complexity).2
              [] fusionWitnessOutput.chunk_id) +
        (3:ℚ)/10 * fusionWitnessInput.score +
        (2:ℚ)/10 * _calculate_intent_boost fusionWitnessInput fusionWitnessQU.primary_intent := by
  have hmem : fusionWitnessOutput ∈ _intelligent_fusion [fusionWitnessInput] [] fusionWitnessQU 5 := by
    rw [fusionWitnessEval]
    exact List.mem_singleton.mpr rfl
  obtain ⟨d, hfind, hscore, hboost⟩ :=
    (C2_intelligent_fusion [fusionWitnessInput] [] fusionWitnessQU 5).1 fusionWitnessOutput hmem
  have hconc : ([fusionWitnessInput] ++ []).find?
      (fun r => r.chunk_id == fusionWitnessOutput.chunk_id) = some fusionWitnessInput := by
    decide
  have hd : d = fusionWitnessInput := Option.some.inj (hfind.symm.trans hconc)
  subst hd
  exact ⟨hmem, by simpa using hscore⟩

/-! # advanced_retriever.AdvancedRetriever._deduplicate_and_merge -/

/-- The retrieval_source metadata tag, read with the source default
"unknown". -/
def sourceTag (r : RetrievalResult) : String :=
  r.metadata.retrieval_source.getD "unknown"

/-- One iteration of the _deduplicate_and_merge loop.  A first occurrence is
appended with its own tag as the singleton source list; a duplicate updates
the retained entry only when it strictly improves the score, in which case
the new tag is appended and the list is deduplicated (the source computes
list(set(...)), whose element order is interpreter-dependent; only
membership in it is ever consumed, and List.dedup models that set). -/
def mergeUpd (r e : RetrievalResult) : RetrievalResult :=
  if e.chunk_id = r.chunk_id ∧ e.score < r.score then
    { e with score := r.score,
             metadata := { e.metadata with
               retrieval_sources :=
                 (e.metadata.retrieval_sources ++ [sourceTag r]).dedup } }
  else e

/-- The entry appended for a first occurrence: the candidate itself with its
own tag as the singleton source list. -/
def mergeNew (r : RetrievalResult) : RetrievalResult :=
  { r with metadata := { r.metadata with retrieval_sources := [sourceTag r] } }

def mergeStep (acc : List RetrievalResult) (r : RetrievalResult) :
    List RetrievalResult :=
  if acc.any (fun e => e.chunk_id == r.chunk_id) then
    acc.map (mergeUpd r)
  else
    acc ++ [mergeNew r]

theorem mergeUpd_chunk_id (r e : RetrievalResult) : (mergeUpd r e).chunk_id = e.chunk_id := by
  by_cases hc : e.chunk_id = r.chunk_id ∧ e.score < r.score <;> simp [mergeUpd, hc]

theorem mergeUpd_pos_score {r e : RetrievalResult}
    (hc : e.chunk_id = r.chunk_id ∧ e.score < r.score) : (mergeUpd r e).score = r.score := by
  simp [mergeUpd, hc]

theorem mergeUpd_pos_sources {r e : RetrievalResult}
    (hc : e.chunk_id = r.chunk_id ∧ e.score < r.score) :
    (mergeUpd r e).metadata.retrieval_sources =
      (e.metadata.retrieval_sources ++ [sourceTag r]).dedup := by
  simp [mergeUpd, hc]

theorem mergeUpd_neg {r e : RetrievalResult}
    (hc : ¬ (e.chunk_id = r.chunk_id ∧ e.score < r.score)) : mergeUpd r e = e := by
  simp [mergeUpd, hc]

theorem mergeNew_chunk_id (r : RetrievalResult) : (mergeNew r).chunk_id = r.chunk_id := rfl

theorem mergeNew_score (r : RetrievalResult) : (mergeNew r).score = r.score := rfl

theorem mergeNew_sources (r : RetrievalResult) :
    (mergeNew r).metadata.retrieval_sources = [sourceTag r] := rfl

/-- AdvancedRetriever._deduplicate_and_merge: fold the merge loop over the
input, then sort by score descending. -/
def _deduplicate_and_merge (results : List RetrievalResult) : List RetrievalResult :=
  pySortDescBy (fun r => r.score) (results.foldl mergeStep [])

/-- Specification-side per-chunk merge state: the running maximum score and
the tags accumulated so far; a tag joins the list exactly when its candidate
strictly improves the running maximum. -/
def specStep (st : Option (ℚ × List String)) (r : RetrievalResult) :
    Option (ℚ × List String) :=
  match st with
  | none => some (r.score, [sourceTag r])
  | some (m, srcs) =>
    if m < r.score then some (r.score, srcs ++ [sourceTag r]) else some (m, srcs)

/-- The merged score and source set that _deduplicate_and_merge retains for a
chunk_id, computed directly from the input order. -/
def specMerge (results : List RetrievalResult) (cid : String) :
    Option (ℚ × List String) :=
  (results.filter (fun r => r.chunk_id == cid)).foldl specStep none

theorem specStep_isSome (st : Option (ℚ × List String)) (r : RetrievalResult) :
    (specStep st r).isSome := by
  rcases st with _ | ⟨m, srcs⟩
  · simp [specStep]
  · by_cases h : m < r.score <;> simp [specStep, h]

theorem specFold_isSome (l : List RetrievalResult) :
    ∀ st : Option (ℚ × List String), (st.isSome ∨ l ≠ []) →
      (l.foldl specStep st).isSome := by
  induction l with
  | nil =>
    intro st h
    rcases h with h | h
    · simpa using h
    · exact absurd rfl h
  | cons r t ih =>
    intro st _
    rw [List.foldl_cons]
    exact ih (specStep st r) (Or.inl (specStep_isSome st r))

theorem specMerge_eq_none_iff (results : List RetrievalResult) (cid : String) :
    specMerge results cid = none ↔ ∀ r ∈ results, ¬ r.chunk_id = cid := by
  constructor
  · intro h r hr hcid
    have hmem : r ∈ results.filter (fun x => x.chunk_id == cid) :=
      List.mem_filter.mpr ⟨hr, by simpa using hcid⟩
    have hne : results.filter (fun x => x.chunk_id == cid) ≠ [] :=
      List.ne_nil_of_mem hmem
    have := specFold_isSome (results.filter (fun x => x.chunk_id == cid)) none (Or.inr hne)
    rw [specMerge] at h
    rw [h] at this
    simp at this
  · intro h
    have hf : results.filter (fun x => x.chunk_id == cid) = [] := by
      rw [List.filter_eq_nil_iff]
      intro r hr
      simpa using h r hr
    rw [specMerge, hf]
    rfl

theorem specMerge_append_single (results : List RetrievalResult)
    (r : RetrievalResult) (cid : String) :
    specMerge (results ++ [r]) cid =
      if r.chunk_id = cid then specStep (specMerge results cid) r
      else specMerge results cid := by
  unfold specMerge
  rw [List.filter_append, List.foldl_append]
  by_cases h : r.chunk_id = cid
  · simp [h]
  · simp [h]

theorem specFold_props (l : List RetrievalResult) :
    ∀ (m0 : ℚ) (s0 : List String),
      ∃ m s, l.foldl specStep (some (m0, s0)) = some (m, s) ∧ m0 ≤ m ∧
        (∀ r ∈ l, r.score ≤ m) ∧ (m = m0 ∨ ∃ r ∈ l, r.score = m) := by
  induction l with
  | nil =>
    intro m0 s0
    exact ⟨m0, s0, rfl, le_refl _, by simp, Or.inl rfl⟩
  | cons r t ih =>
    intro m0 s0
    by_cases h : m0 < r.score
    · obtain ⟨m, s, he, hle, hall, hmax⟩ := ih r.score (s0 ++ [sourceTag r])
      refine ⟨m, s, ?_, le_trans (le_of_lt h) hle, ?_, ?_⟩
      · rw [List.foldl_cons]
        simpa [specStep, h] using he
      · intro x hx
        rcases List.mem_cons.mp hx with hx | hx
        · subst hx; exact hle
        · exact hall x hx
      · rcases hmax with hmax | ⟨x, hx, hxe⟩
        · exact Or.inr ⟨r, List.mem_cons_self r t, hmax.symm⟩
        · exact Or.inr ⟨x, List.mem_cons_of_mem r hx, hxe⟩
    · obtain ⟨m, s, he, hle, hall, hmax⟩ := ih m0 s0
      refine ⟨m, s, ?_, hle, ?_, ?_⟩
      · rw [List.foldl_cons]
        simpa [specStep, h] using he
      · intro x hx
        rcases List.mem_cons.mp hx with hx | hx
        · subst hx; exact le_trans (not_lt.mp h) hle
        · exact hall x hx
      · rcases hmax with hmax | ⟨x, hx, hxe⟩
        · exact Or.inl hmax
        · exact Or.inr ⟨x, List.mem_cons_of_mem r hx, hxe⟩

theorem specMerge_max (results : List RetrievalResult) (cid : String)
    (m : ℚ) (srcs : List String) (h : specMerge results cid = some (m, srcs)) :
    (∀ r ∈ results, r.chunk_id = cid → r.score ≤ m) ∧
      (∃ r ∈ results, r.chunk_id = cid ∧ r.score = m) := by
  unfold specMerge at h
  rcases hf : results.filter (fun x => x.chunk_id == cid) with _ | ⟨x, xs⟩
  · rw [hf] at h
    simp at h
  · rw [hf, List.foldl_cons] at h
    have hx0 : specStep none x = some (x.score, [sourceTag x]) := rfl
    rw [hx0] at h
    obtain ⟨m2, s2, he, hle, hall, hmax⟩ := specFold_props xs x.score [sourceTag x]
    rw [he] at h
    have hm : m2 = m := by
      have := Option.some.inj h
      exact congrArg Prod.fst this
    subst hm
    have hmemx : x ∈ results.filter (fun x => x.chunk_id == cid) := by
      rw [hf]; exact List.mem_cons_self x xs
    constructor
    · intro r hr hcid
      have hmem : r ∈ results.filter (fun y => y.chunk_id == cid) :=
        List.mem_filter.mpr ⟨hr, by simpa using hcid⟩
      rw [hf] at hmem
      rcases List.mem_cons.mp hmem with hmem | hmem
      · subst hmem; exact hle
      · exact hall r hmem
    · rcases hmax with hmax | ⟨y, hy, hye⟩
      · refine ⟨x, List.mem_of_mem_filter hmemx, ?_, hmax.symm⟩
        simpa using (List.mem_filter.mp hmemx).2
      · have hymem : y ∈ results.filter (fun x => x.chunk_id == cid) := by
          rw [hf]; exact List.mem_cons_of_mem x hy
        refine ⟨y, List.mem_of_mem_filter hymem, ?_, hye⟩
        simpa using (List.mem_filter.mp hymem).2

/-- The loop invariant of _deduplicate_and_merge: after processing a prefix,
the accumulator has pairwise-distinct chunk_ids, contains a chunk_id exactly
when the prefix does, and each retained entry carries the merged score and
source set computed by specMerge over the prefix. -/
structure MergeInv (processed acc : List RetrievalResult) : Prop where
  nodup : (acc.map (fun e => e.chunk_id)).Nodup
  coverage : ∀ cid : String, (∃ e ∈ acc, e.chunk_id = cid) ↔ specMerge processed cid ≠ none
  state : ∀ e ∈ acc, ∃ srcs, specMerge processed e.chunk_id = some (e.score, srcs) ∧
    (∀ s, s ∈ e.metadata.retrieval_sources ↔ s ∈ srcs)

theorem mergeInv_nil : MergeInv [] [] := by
  refine ⟨by simp, ?_, by simp⟩
  intro cid
  simp [specMerge]

theorem mergeInv_step {processed acc : List RetrievalResult} (r : RetrievalResult)
    (inv : MergeInv processed acc) : MergeInv (processed ++ [r]) (mergeStep acc r) := by
  by_cases hin : acc.any (fun e => e.chunk_id == r.chunk_id)
  · -- duplicate chunk_id: update in place
    have hupd : mergeStep acc r = acc.map (mergeUpd r) := by
      rw [mergeStep, if_pos hin]
    have hrin : ∃ e ∈ acc, e.chunk_id = r.chunk_id := by
      rw [List.any_eq_true] at hin
      obtain ⟨e, he, hee⟩ := hin
      exact ⟨e, he, by simpa using hee⟩
    refine ⟨?_, ?_, ?_⟩
    · rw [hupd, List.map_map]
      have : (fun e => e.chunk_id) ∘ mergeUpd r = fun e : RetrievalResult => e.chunk_id := by
        funext e
        exact mergeUpd_chunk_id r e
      rw [this]
      exact inv.nodup
    · intro cid
      have hmem : (∃ e ∈ mergeStep acc r, e.chunk_id = cid) ↔ ∃ e ∈ acc, e.chunk_id = cid := by
        rw [hupd]
        constructor
        · rintro ⟨e2, he2, hee⟩
          obtain ⟨x, hx, hxe⟩ := List.mem_map.mp he2
          refine ⟨x, hx, ?_⟩
          rw [← hee, ← hxe, mergeUpd_chunk_id]
        · rintro ⟨e, he, hee⟩
          exact ⟨mergeUpd r e, List.mem_map_of_mem _ he,
            by rw [mergeUpd_chunk_id]; exact hee⟩
      rw [hmem, inv.coverage cid, specMerge_append_single]
      by_cases hc : r.chunk_id = cid
      · rw [if_pos hc]
        constructor
        · intro _ hnone
          have hs := specStep_isSome (specMerge processed cid) r
          rw [hnone] at hs
          simp at hs
        · intro _
          rw [← inv.coverage cid]
          obtain ⟨e, he, hee⟩ := hrin
          exact ⟨e, he, hee.trans hc⟩
      · rw [if_neg hc]
    · intro e2 he2
      rw [hupd] at he2
      obtain ⟨e, he, hee⟩ := List.mem_map.mp he2
      obtain ⟨srcs, hsm, hsrc⟩ := inv.state e he
      subst hee
      by_cases hc : e.chunk_id = r.chunk_id ∧ e.score < r.score
      · -- strict improvement: score and sources are replaced
        refine ⟨srcs ++ [sourceTag r], ?_, ?_⟩
        · rw [mergeUpd_chunk_id, mergeUpd_pos_score hc, specMerge_append_single,
            if_pos hc.1.symm, hsm]
          simp [specStep, hc.2]
        · intro s
          simp only [mergeUpd_pos_sources hc, List.mem_dedup, List.mem_append, hsrc s]
      · -- no improvement: the entry is unchanged
        rw [mergeUpd_neg hc]
        refine ⟨srcs, ?_, hsrc⟩
        rw [specMerge_append_single]
        by_cases hc2 : r.chunk_id = e.chunk_id
        · rw [if_pos hc2, hsm]
          have hnotlt : ¬ e.score < r.score := fun hlt => hc ⟨hc2.symm, hlt⟩
          simp [specStep, hnotlt]
        · rw [if_neg hc2, hsm]
  · -- first occurrence: append with a singleton source list
    have hupd : mergeStep acc r = acc ++ [mergeNew r] := by
      rw [mergeStep, if_neg hin]
    have hnew : ∀ e ∈ acc, ¬ e.chunk_id = r.chunk_id := by
      intro e he hee
      exact hin (List.any_eq_true.mpr ⟨e, he, by simpa using hee⟩)
    have holdnone : specMerge processed r.chunk_id = none := by
      by_contra hne
      obtain ⟨e, he, hee⟩ := (inv.coverage r.chunk_id).mpr hne
      exact hnew e he hee
    refine ⟨?_, ?_, ?_⟩
    · rw [hupd]
      simp only [List.map_append, List.map_cons, List.map_nil]
      rw [List.nodup_append]
      refine ⟨inv.nodup, by simp, ?_⟩
      intro cid hc1 hc2
      obtain ⟨e, he, hee⟩ := List.mem_map.mp hc1
      have hcid : cid = (mergeNew r).chunk_id := by simpa using hc2
      exact hnew e he (hee.trans (hcid.trans (mergeNew_chunk_id r)))
    · intro cid
      rw [hupd, specMerge_append_single]
      by_cases hc : r.chunk_id = cid
      · rw [if_pos hc]
        constructor
        · intro _ hnone
          have hs := specStep_isSome (specMerge processed cid) r
          rw [hnone] at hs
          simp at hs
        · intro _
          exact ⟨mergeNew r, List.mem_append_right _ (by simp),
            (mergeNew_chunk_id r).trans hc⟩
      · rw [if_neg hc, ← inv.coverage cid]
        constructor
        · rintro ⟨e, he, hee⟩
          rcases List.mem_append.mp he with he | he
          · exact ⟨e, he, hee⟩
          · have he2 : e = mergeNew r := by simpa using he
            subst he2
            exact absurd ((mergeNew_chunk_id r).symm.trans hee) hc
        · rintro ⟨e, he, hee⟩
          exact ⟨e, List.mem_append_left _ he, hee⟩
    · intro e he
      rw [hupd] at he
      rcases List.mem_append.mp he with he | he
      · obtain ⟨srcs, hsm, hsrc⟩ := inv.state e he
        refine ⟨srcs, ?_, hsrc⟩
        rw [specMerge_append_single]
        rw [if_neg (fun h => hnew e he h.symm), hsm]
      · have he2 : e = mergeNew r := by simpa using he
        subst he2
        refine ⟨[sourceTag r], ?_, by intro s; rw [mergeNew_sources]⟩
        rw [mergeNew_chunk_id, mergeNew_score, specMerge_append_single, if_pos rfl, holdnone]
        rfl

theorem mergeInv_foldl (rest : List RetrievalResult) :
    ∀ processed acc, MergeInv processed acc →
      MergeInv (processed ++ rest) (rest.foldl mergeStep acc) := by
  induction rest with
  | nil =>
    intro p acc h
    rw [List.append_nil]
    exact h
  | cons r t ih =>
    intro p acc h
    rw [List.foldl_cons]
    have h2 := ih (p ++ [r]) (mergeStep acc r) (mergeInv_step r h)
    rw [List.append_assoc] at h2
    simpa using h2

theorem pySortDescBy_sorted {α : Type} (score : α → ℚ) (l : List α) :
    (pySortDescBy score l).Pairwise (fun a b => score b ≤ score a) := by
  unfold pySortDescBy
  refine List.Pairwise.imp ?_ (List.sorted_mergeSort ?_ ?_ l)
  · intro a b hab
    exact of_decide_eq_true hab
  · intro a b c h1 h2
    exact decide_eq_true (le_trans (of_decide_eq_true h2) (of_decide_eq_true h1))
  · intro a b
    rcases le_total (score b) (score a) with h | h
    · simp [h]
    · simp [h]

theorem pySortDescBy_perm {α : Type} (score : α → ℚ) (l : List α) :
    List.Perm (pySortDescBy score l) l :=
  List.mergeSort_perm l _

/-- Claim C1 (amended): the merged output of _deduplicate_and_merge contains
each chunk_id at most once, is sorted by score descending, covers every input
chunk_id, and each retained entry carries the maximum score over all input
candidates with its chunk_id; its recorded sources, however, are not the full
union over duplicates, but exactly the tags accumulated by specMerge: the
first occurrence plus those duplicates that strictly improved the running
maximum score when encountered. -/
theorem C1_dedup_merge (results : List RetrievalResult) :
    ((_deduplicate_and_merge results).map (fun e => e.chunk_id)).Nodup ∧
    (_deduplicate_and_merge results).Pairwise (fun a b => b.score ≤ a.score) ∧
    (∀ r ∈ results, ∃ e ∈ _deduplicate_and_merge results, e.chunk_id = r.chunk_id) ∧
    (∀ e ∈ _deduplicate_and_merge results,
      ∃ srcs, specMerge results e.chunk_id = some (e.score, srcs) ∧
        (∀ s, s ∈ e.metadata.retrieval_sources ↔ s ∈ srcs)) ∧
    (∀ e ∈ _deduplicate_and_merge results,
      (∀ r ∈ results, r.chunk_id = e.chunk_id → r.score ≤ e.score) ∧
        ∃ r ∈ results, r.chunk_id = e.chunk_id ∧ r.score = e.score) := by
  have inv : MergeInv results (results.foldl mergeStep []) := by
    have h := mergeInv_foldl results [] [] mergeInv_nil
    simpa using h
  have hperm : List.Perm (_deduplicate_and_merge results) (results.foldl mergeStep []) := by
    unfold _deduplicate_and_merge
    exact pySortDescBy_perm _ _
  have hmem : ∀ e, e ∈ _deduplicate_and_merge results ↔ e ∈ results.foldl mergeStep [] :=
    fun e => hperm.mem_iff
  refine ⟨?_, ?_, ?_, ?_, ?_⟩
  · exact ((hperm.map (fun e => e.chunk_id)).nodup_iff).mpr inv.nodup
  · exact pySortDescBy_sorted _ _
  · intro r hr
    have hne : specMerge results r.chunk_id ≠ none := by
      rw [Ne, specMerge_eq_none_iff]
      push_neg
      exact ⟨r, hr, rfl⟩
    obtain ⟨e, he, hee⟩ := (inv.coverage r.chunk_id).mpr hne
    exact ⟨e, (hmem e).mpr he, hee⟩
  · intro e he
    exact inv.state e ((hmem e).mp he)
  · intro e he
    obtain ⟨srcs, hsm, _⟩ := inv.state e ((hmem e).mp he)
    exact specMerge_max results e.chunk_id e.score srcs hsm

/-- C1 counterexample inputs: two candidates for the same chunk_id; the
second carries a lower score and the hierarchical source tag. -/
def dedupCexHybrid : RetrievalResult :=
  { chunk_id := "c", content := "x", score := 2,
    metadata := { retrieval_source := some "hybrid" } }

def dedupCexHier : RetrievalResult :=
  { chunk_id := "c", content := "y", score := 1,
    metadata := { retrieval_source := some "hierarchical" } }

/-- What _deduplicate_and_merge actually retains for the C1 counterexample:
only the hybrid tag. -/
def dedupCexOut : RetrievalResult :=
  { chunk_id := "c", content := "x", score := 2,
    metadata := { retrieval_source := some "hybrid", retrieval_sources := ["hybrid"] } }

theorem dedupCexEval :
    _deduplicate_and_merge [dedupCexHybrid, dedupCexHier] = [dedupCexOut] := by
  have s1 : mergeStep [] dedupCexHybrid = [mergeNew dedupCexHybrid] := by
    rw [mergeStep, if_neg (by simp)]
    rfl
  have s2 : mergeStep [mergeNew dedupCexHybrid] dedupCexHier = [mergeNew dedupCexHybrid] := by
    rw [mergeStep, if_pos (by decide)]
    rw [List.map_cons, List.map_nil, mergeUpd_neg ?_]
    · intro hcond
      have : (2:ℚ) < 1 := by
        simpa [mergeNew_score, dedupCexHybrid, dedupCexHier] using hcond.2
      norm_num at this
  have hout : mergeNew dedupCexHybrid = dedupCexOut := rfl
  unfold _deduplicate_and_merge
  rw [List.foldl_cons, List.foldl_cons, List.foldl_nil, s1, s2, hout]
  simp [pySortDescBy]

/-- Counterexample for C1 as stated: the union clause fails.  On the concrete
input the lower-scoring hierarchical duplicate is dropped without its source
tag being merged, so the retained entry records only the hybrid tag rather
than the union of both tags. -/
theorem C1_dedup_merge_counterexample :
    ¬ (∀ e ∈ _deduplicate_and_merge [dedupCexHybrid, dedupCexHier],
        ∀ r ∈ [dedupCexHybrid, dedupCexHier],
          r.chunk_id = e.chunk_id → sourceTag r ∈ e.metadata.retrieval_sources) := by
  intro h
  have h2 := h dedupCexOut (by rw [dedupCexEval]; exact List.mem_singleton.mpr rfl)
    dedupCexHier (by simp) rfl
  rw [show sourceTag dedupCexHier = "hierarchical" from rfl,
    show dedupCexOut.metadata.retrieval_sources = ["hybrid"] from rfl] at h2
  simp at h2

/-! # multi_representation_index.HierarchicalIndexManager

The builder derives three chunk levels per policy and records parent/child
edges in two dict-backed maps.  Dicts are association lists in insertion
order; dict.get never creates entries (also not on the defaultdict, whose
default factory fires only on subscript access, which the lookup path never
uses). -/

/-- multi_representation_index.IndexLevel. -/
inductive IndexLevel where
  | POLICY
  | SECTION
  | SENTENCE
deriving DecidableEq, Repr

/-- models.PolicyChunk, the fields consumed by the hierarchy builder (the
other document fields are never read by it).  The source field named section
is a Lean keyword and is rendered section_label. -/
structure PolicyChunk where
  chunk_id : String
  policy_id : String
  content : String
  section_label : Option String := none
  keywords : List String := []
deriving DecidableEq, Repr

/-- multi_representation_index.MultiRepresentationChunk, the fields used by
the builder and the hierarchy relations.  The dense/sparse representation
fields and the children_ids mirror of hierarchy_map are not consumed by any
claim and are omitted. -/
structure MultiRepresentationChunk where
  chunk_id : String
  policy_id : String
  content : String
  level : IndexLevel
  section_label : Option String := none
  importance_score : ℚ := 0
deriving DecidableEq, Repr

/-- The two hierarchy maps of the manager. -/
structure HierarchyState where
  hierarchy_map : List (String × List String) := []
  reverse_hierarchy : List (String × String) := []
deriving DecidableEq, Repr

/-- Python dict.get: front-to-back lookup, never creates an entry. -/
def dictGet {α : Type} (l : List (String × α)) (k : String) : Option α :=
  (l.find? (fun p => p.1 == k)).map (fun p => p.2)

/-- defaultdict(list) append, self.m[k].append(v): extend the entry or create
the key with a singleton list. -/
def dictAppend (l : List (String × List String)) (k v : String) :
    List (String × List String) :=
  if l.any (fun p => p.1 == k) then
    l.map (fun p => if p.1 = k then (p.1, p.2 ++ [v]) else p)
  else l ++ [(k, [v])]

/-- dict assignment self.m[k] = v. -/
def dictSet (l : List (String × String)) (k v : String) : List (String × String) :=
  if l.any (fun p => p.1 == k) then
    l.map (fun p => if p.1 = k then (p.1, v) else p)
  else l ++ [(k, v)]

/-- Python grouping into a defaultdict(list): keys in first-occurrence order,
each group in input order. -/
def pyGroupBy {α : Type} (key : α → String) (items : List α) :
    List (String × List α) :=
  items.foldl (fun acc c =>
    if acc.any (fun p => p.1 == key c) then
      acc.map (fun p => if p.1 = key c then (p.1, p.2 ++ [c]) else p)
    else acc ++ [(key c, [c])]) []

/-- Python chunk.section or "default": None and the empty string are falsy. -/
def sectionOrDefault (s : Option String) : String :=
  match s with
  | none => "default"
  | some v => if v = "" then "default" else v

/-- The sentence-accumulating loop of _generate_policy_summary; the source
breaks out of the loop at the first sentence that no longer fits. -/
def summaryLoop : String → List String → String
  | acc, [] => acc
  | acc, s :: rest =>
    if (acc ++ s).length ≤ 500 then summaryLoop (acc ++ s ++ "。") rest else acc

/-- HierarchicalIndexManager._generate_policy_summary: contents up to 500
characters pass through; longer contents are cut at sentence boundaries, or
at 500 characters when no sentence fits. -/
def _generate_policy_summary (content : String) : String :=
  if content.length ≤ 500 then content
  else
    let sentences := content.splitOn "。"
    let summary := summaryLoop "" sentences
    if summary = "" then String.mk (content.toList.take 500) else summary

/-- The keyword list of _calculate_section_importance. -/
def important_keywords : List String :=
  ["政策", "支持", "申请", "条件", "资金", "补贴", "要求", "流程"]

/-- HierarchicalIndexManager._calculate_section_importance:
0.6·lengthScore + 0.4·keywordScore. -/
def _calculate_section_importance (content : String) : ℚ :=
  let length_score : ℚ := min ((content.length : ℚ) / 1000) 1
  let keyword_score : ℚ :=
    ((important_keywords.filter (fun k => pyContains content k)).length : ℚ) /
      (important_keywords.length : ℚ)
  (6:ℚ)/10 * length_score + (4:ℚ)/10 * keyword_score

/-- Python character slicing s[a:b] with clamping and negative wrap-around. -/
def pySliceChars (cs : List Char) (a b : Int) : List Char :=
  let n : Int := cs.length
  let norm : Int → Int := fun i => if i < 0 then max 0 (n + i) else min i n
  (cs.take (norm b).toNat).drop (norm a).toNat

/-- Python str.rfind(ch, a, b): the largest index of ch in the normalized
window, or -1. -/
def pyRfindChar (cs : List Char) (c : Char) (a b : Int) : Int :=
  let n : Int := cs.length
  let norm : Int → Int := fun i => if i < 0 then max 0 (n + i) else min i n
  cs.enum.foldl (fun acc p =>
    if norm a ≤ (p.1 : Int) ∧ (p.1 : Int) < norm b ∧ p.2 = c then max acc (p.1 : Int)
    else acc) (-1)

/-- The while loop of _split_long_chunk.  The source loop does not always
advance (start = end − overlap can move backwards when the period found is
near the window start), so the recursion is bounded by fuel; the claims only
build hierarchies over chunks below the split threshold, where the loop is
never entered. -/
def splitLoop (cs : List Char) (max_size overlap : Nat) :
    Nat → Int → List String → List String
  | 0, _, acc => acc
  | fuel + 1, start, acc =>
    if start < (cs.length : Int) then
      let endPos := start + max_size
      if endPos ≥ (cs.length : Int) then
        acc ++ [String.mk (pySliceChars cs start cs.length)]
      else
        let period_pos := pyRfindChar cs '。' start endPos
        let endPos2 := if period_pos > start then period_pos + 1 else endPos
        splitLoop cs max_size overlap fuel (endPos2 - overlap)
          (acc ++ [String.mk (pySliceChars cs start endPos2)])
    else acc

/-- HierarchicalIndexManager._split_long_chunk. -/
def _split_long_chunk (content : String) (max_size overlap : Nat) : List String :=
  if content.length ≤ max_size then [content]
  else splitLoop content.toList max_size overlap (content.length + 1) 0 []

/-- config.INDEX_LEVELS sentence chunk_size. -/
def config_sentence_chunk_size : Nat := 512

/-- config.INDEX_LEVELS sentence overlap. -/
def config_sentence_overlap : Nat := 50

/-- HierarchicalIndexManager._create_policy_level_chunks: one synthetic
policy-level chunk per policy. -/
def _create_policy_level_chunks (policy_id : String) (chunks : List PolicyChunk) :
    List MultiRepresentationChunk :=
  let full_content := String.intercalate "\n" (chunks.map (fun c => c.content))
  [{ chunk_id := policy_id ++ "_policy_level", policy_id := policy_id,
     content := _generate_policy_summary full_content, level := IndexLevel.POLICY,
     importance_score := 1 }]

/-- HierarchicalIndexManager._create_section_level_chunks: groups by
chunk.section or "default" and concatenates each group. -/
def _create_section_level_chunks (policy_id : String) (chunks : List PolicyChunk) :
    List MultiRepresentationChunk :=
  (pyGroupBy (fun c => sectionOrDefault c.section_label) chunks).map (fun g =>
    let section_content := String.intercalate "\n" (g.2.map (fun c => c.content))
    { chunk_id := policy_id ++ "_section_" ++ g.1, policy_id := policy_id,
      content := section_content, level := IndexLevel.SECTION,
      section_label := some g.1,
      importance_score := _calculate_section_importance section_content })

/-- HierarchicalIndexManager._create_sentence_level_chunks: original chunks
pass through (split when longer than the configured size), keeping their raw
section label, which unlike the section grouping is NOT defaulted. -/
def _create_sentence_level_chunks (chunks : List PolicyChunk) :
    List MultiRepresentationChunk :=
  chunks.foldl (fun acc c =>
    if c.content.length > config_sentence_chunk_size then
      acc ++ ((_split_long_chunk c.content config_sentence_chunk_size
          config_sentence_overlap).enum.map
        (fun p => { chunk_id := c.chunk_id ++ "_sub_" ++ toString p.1,
                    policy_id := c.policy_id, content := p.2,
                    level := IndexLevel.SENTENCE, section_label := c.section_label,
                    importance_score := (6:ℚ)/10 }))
    else
      acc ++ [{ chunk_id := c.chunk_id, policy_id := c.policy_id, content := c.content,
                level := IndexLevel.SENTENCE, section_label := c.section_label,
                importance_score := (6:ℚ)/10 }]) []

/-- HierarchicalIndexManager._build_hierarchy_relations: policy→section and
section→sentence edges.  A sentence chunk is linked when its policy matches
and its raw section label equals the section chunk's label (the section
chunk's label is always a string, so a sentence chunk with a missing label
never compares equal, exactly as None == str in the source). -/
def _build_hierarchy_relations
    (policy_chunks section_chunks sentence_chunks : List MultiRepresentationChunk)
    (st : HierarchyState) : HierarchyState :=
  let st1 := policy_chunks.foldl (fun st pc =>
    let related_sections := (section_chunks.filter
      (fun s => s.policy_id == pc.policy_id)).map (fun s => s.chunk_id)
    related_sections.foldl (fun st sid =>
      { hierarchy_map := dictAppend st.hierarchy_map pc.chunk_id sid,
        reverse_hierarchy := dictSet st.reverse_hierarchy sid pc.chunk_id }) st) st
  section_chunks.foldl (fun st sc =>
    let related_sentences := (sentence_chunks.filter (fun s =>
      s.policy_id == sc.policy_id && s.section_label == sc.section_label)).map
      (fun s => s.chunk_id)
    related_sentences.foldl (fun st sid =>
      { hierarchy_map := dictAppend st.hierarchy_map sc.chunk_id sid,
        reverse_hierarchy := dictSet st.reverse_hierarchy sid sc.chunk_id }) st) st1

/-- HierarchicalIndexManager.build_hierarchical_chunks starting from a fresh
manager: per policy group, the three levels are created and the hierarchy
maps extended. -/
def build_hierarchical_chunks (policy_chunks : List PolicyChunk) :
    List MultiRepresentationChunk × HierarchyState :=
  (pyGroupBy (fun c => c.policy_id) policy_chunks).foldl (fun acc g =>
    let pcs := _create_policy_level_chunks g.1 g.2
    let scs := _create_section_level_chunks g.1 g.2
    let stcs := _create_sentence_level_chunks g.2
    (acc.1 ++ pcs ++ scs ++ stcs, _build_hierarchy_relations pcs scs stcs acc.2))
    ([], {})

/-- The context dict returned by get_hierarchy_context. -/
structure HierarchyContext where
  current_chunk : String
  parent : Option String
  children : List String
  siblings : List String
deriving DecidableEq, Repr

/-- HierarchicalIndexManager.get_hierarchy_context: pure dict.get lookups;
siblings are filled only when the parent is truthy (non-None and non-empty).
The state is returned unchanged to witness that the lookup never writes the
maps. -/
def get_hierarchy_context (st : HierarchyState) (chunk_id : String) :
    HierarchyContext × HierarchyState :=
  let parent := dictGet st.reverse_hierarchy chunk_id
  let children := (dictGet st.hierarchy_map chunk_id).getD []
  let siblings :=
    match parent with
    | some p =>
      if p ≠ "" then ((dictGet st.hierarchy_map p).getD []).filter (fun c => c ≠ chunk_id)
      else []
    | none => []
  ({ current_chunk := chunk_id, parent := parent, children := children,
     siblings := siblings }, st)

/-- Claim C10: the hierarchy-context lookup is total, never mutates the maps,
returns no parent, no children and no siblings for an unknown id, and when
the id has a (non-empty) recorded parent the siblings are exactly the
parent's other children with the queried id removed. -/
theorem C10_get_hierarchy_context (st : HierarchyState) (cid : String) :
    (get_hierarchy_context st cid).2 = st ∧
    (dictGet st.reverse_hierarchy cid = none → dictGet st.hierarchy_map cid = none →
      (get_hierarchy_context st cid).1 =
        { current_chunk := cid, parent := none, children := [], siblings := [] }) ∧
    (∀ p, dictGet st.reverse_hierarchy cid = some p → p ≠ "" →
      (get_hierarchy_context st cid).1.parent = some p ∧
      (get_hierarchy_context st cid).1.siblings =
        ((dictGet st.hierarchy_map p).getD []).filter (fun c => c ≠ cid)) := by
  refine ⟨rfl, ?_, ?_⟩
  · intro h1 h2
    simp [get_hierarchy_context, h1, h2]
  · intro p hp hne
    constructor
    · simp [get_hierarchy_context, hp]
    · simp [get_hierarchy_context, hp, hne]

/-- A small concrete hierarchy for the C10 witness. -/
def hierWitnessState : HierarchyState :=
  { hierarchy_map := [("p", ["a", "b"])],
    reverse_hierarchy := [("a", "p"), ("b", "p")] }

/-- Witness for C10: an unknown id yields the empty context, and the sibling
of chunk a under parent p is exactly b; the state is untouched. -/
theorem C10_get_hierarchy_context_witness :
    (get_hierarchy_context hierWitnessState "zzz").1 =
      { current_chunk := "zzz", parent := none, children := [], siblings := [] } ∧
    (get_hierarchy_context hierWitnessState "a").1.siblings = ["b"] ∧
    (get_hierarchy_context hierWitnessState "a").2 = hierWitnessState := by
  refine ⟨?_, ?_, (C10_get_hierarchy_context hierWitnessState "a").1⟩
  · exact (C10_get_hierarchy_context hierWitnessState "zzz").2.1 (by decide) (by decide)
  · have h := (C10_get_hierarchy_context hierWitnessState "a").2.2 "p" (by decide) (by decide)
    rw [h.2]
    decide

/-- C4 failing input: a single flat chunk with no section label. -/
def hierCexChunk : PolicyChunk :=
  { chunk_id := "c1", policy_id := "p1", content := "hello" }

/-- Claim C4 evaluated at the failing input: the section grouping substitutes
"default" for the missing label, so the synthetic section chunk carries the
label default, but the sentence-level chunk keeps section None; the
relation-building filter compares None to "default", never matches, and the
sentence-level chunk c1 is left with no parent in reverse_hierarchy, while
the section chunk is correctly linked to the policy chunk.  This contradicts
the claimed invariant that every Sentence-level chunk has exactly one
Section-level parent. -/
theorem C4_hierarchy_orphan :
    ((build_hierarchical_chunks [hierCexChunk]).1.filter
        (fun c => c.level == IndexLevel.SENTENCE)).map (fun c => c.chunk_id) = ["c1"] ∧
    dictGet (build_hierarchical_chunks [hierCexChunk]).2.reverse_hierarchy "c1" = none ∧
    dictGet (build_hierarchical_chunks [hierCexChunk]).2.reverse_hierarchy
      "p1_section_default" = some "p1_policy_level" := by
  refine ⟨?_, ?_, ?_⟩ <;> decide

/-! # advanced_retriever.AdvancedRetriever.retrieve

Each pipeline step of the orchestrator calls out to collaborators; every
step body is wrapped in its own try/except that converts any exception into
a degraded value (an error dict, an empty candidate list, the truncated
input, or a missing summary).  The outcome of each step's interior is
therefore a parameter (an Except value), and the embedded pipeline maps it
through the same handlers as the source.  Because every step catches its own
exceptions, the top-level handler of retrieve, which would produce
success=False, is unreachable for any combination of step outcomes, and the
embedded retrieve returns success := true unconditionally. -/

/-- advanced_retriever.RetrievalStrategy. -/
inductive RetrievalStrategy where
  | SIMPLE
  | HYBRID
  | HIERARCHICAL
  | MULTI_REPRESENTATION
  | FULL_ADVANCED
deriving DecidableEq, Repr

/-- The .value string of a RetrievalStrategy member. -/
def strategyValue : RetrievalStrategy → String
  | RetrievalStrategy.SIMPLE => "simple"
  | RetrievalStrategy.HYBRID => "hybrid"
  | RetrievalStrategy.HIERARCHICAL => "hierarchical"
  | RetrievalStrategy.MULTI_REPRESENTATION => "multi_rep"
  | RetrievalStrategy.FULL_ADVANCED => "full_advanced"

/-- advanced_retriever.AdvancedQueryRequest (company_context and metadata are
opaque pass-through values and are omitted). -/
structure AdvancedQueryRequest where
  query : String
  strategy : RetrievalStrategy := RetrievalStrategy.FULL_ADVANCED
  use_llm_enhancement : Bool := true
  use_reranking : Bool := true
  use_hierarchical_index : Bool := true
  use_query_understanding : Bool := true
  top_k : Nat := 10
deriving DecidableEq, Repr

/-- The dict built by _enhance_query_understanding: on an interior failure it
degrades to the original query plus an error message (the successful payload
feeds only the collaborators already modelled as outcome oracles). -/
structure EnhancedUnderstanding where
  original_query : String
  error : Option String := none
deriving DecidableEq, Repr

/-- The outcome of each orchestrator step's interior (ok value or raised
exception), supplied by the collaborators. -/
structure OrchestratorEnv where
  quOutcome : Except String Unit
  hybridOutcome : Except String (List RetrievalResult)
  hierarchicalOutcome : Except String (List RetrievalResult)
  multiRepOutcome : Except String (List RetrievalResult)
  rerankOutcome : Except String (List RetrievalResult)
  llmOutcome : Except String (Option String × Option String)

/-- AdvancedRetriever._enhance_query_understanding with its interior
try/except. -/
def _enhance_query_understanding (env : OrchestratorEnv) (query : String) :
    EnhancedUnderstanding :=
  match env.quOutcome with
  | Except.ok _ => { original_query := query }
  | Except.error e => { original_query := query, error := some e }

/-- The per-strategy try/except of _hybrid_retrieval, _hierarchical_retrieval
and _multi_representation_retrieval: an exception yields an empty list. -/
def strategyOutcome (o : Except String (List RetrievalResult)) : List RetrievalResult :=
  match o with
  | Except.ok l => l
  | Except.error _ => []

/-- AdvancedRetriever._multi_strategy_retrieval: the strategy guards of the
source, concatenation, then _deduplicate_and_merge.  After the per-strategy
handlers the body is total, so the surrounding try/except never fires. -/
def _multi_strategy_retrieval (env : OrchestratorEnv) (req : AdvancedQueryRequest) :
    List RetrievalResult :=
  let all_results :=
    (if req.strategy ∈ [RetrievalStrategy.HYBRID, RetrievalStrategy.FULL_ADVANCED] then
      strategyOutcome env.hybridOutcome else []) ++
    (if req.use_hierarchical_index ∧ req.strategy ∈ [RetrievalStrategy.HIERARCHICAL,
        RetrievalStrategy.MULTI_REPRESENTATION, RetrievalStrategy.FULL_ADVANCED] then
      strategyOutcome env.hierarchicalOutcome else []) ++
    (if req.strategy ∈ [RetrievalStrategy.MULTI_REPRESENTATION,
        RetrievalStrategy.FULL_ADVANCED] then
      strategyOutcome env.multiRepOutcome else [])
  _deduplicate_and_merge all_results

/-- The statistics dict of AdvancedRetriever._generate_stats. -/
structure RetrievalStats where
  strategy_used : String
  raw_results_count : Nat
  final_results_count : Nat
  used_llm_enhancement : Bool
  used_reranking : Bool
  used_hierarchical_index : Bool
  retrieval_sources : List String
  avg_score : ℚ
deriving DecidableEq, Repr

/-- advanced_retriever.AdvancedRetrievalResponse. -/
structure AdvancedRetrievalResponse where
  results : List RetrievalResult
  llm_generated_summary : Option String := none
  optimization_strategy : Option String := none
  query_understanding : Option EnhancedUnderstanding := none
  retrieval_stats : Option RetrievalStats := none
  success : Bool := true
  error : Option String := none

/-- AdvancedRetriever._generate_stats. -/
def _generate_stats (req : AdvancedQueryRequest)
    (raw_results final_results : List RetrievalResult) : RetrievalStats :=
  { strategy_used := strategyValue req.strategy,
    raw_results_count := raw_results.length,
    final_results_count := final_results.length,
    used_llm_enhancement := req.use_llm_enhancement,
    used_reranking := req.use_reranking,
    used_hierarchical_index := req.use_hierarchical_index,
    retrieval_sources :=
      ((final_results.map (fun r => r.metadata.retrieval_sources)).flatten).dedup,
    avg_score :=
      if final_results ≠ [] then
        (final_results.map (fun r => r.score)).sum / (final_results.length : ℚ)
      else 0 }

/-- AdvancedRetriever.retrieve: understanding, multi-strategy retrieval,
reranking, LLM enhancement, statistics; each step degraded through its own
handler. -/
def retrieve (env : OrchestratorEnv) (req : AdvancedQueryRequest) :
    AdvancedRetrievalResponse :=
  let query_understanding :=
    if req.use_query_understanding then some (_enhance_query_understanding env req.query)
    else none
  let raw_results := _multi_strategy_retrieval env req
  let reranked_results :=
    if req.use_reranking ∧ raw_results ≠ [] then
      match env.rerankOutcome with
      | Except.ok l => l
      | Except.error _ => raw_results.take req.top_k
    else raw_results.take req.top_k
  let enhancement :=
    if req.use_llm_enhancement ∧ reranked_results ≠ [] then
      match env.llmOutcome with
      | Except.ok pr => pr
      | Except.error _ => (none, none)
    else (none, none)
  { results := reranked_results,
    llm_generated_summary := enhancement.1,
    optimization_strategy := enhancement.2,
    query_understanding := query_understanding,
    retrieval_stats := some (_generate_stats req raw_results reranked_results),
    success := true,
    error := none }

/-- Claim C3 (amended): the orchestrator always reports success=true with no
error: each individual step failure is caught locally and the pipeline
degrades (an all-strategy failure yields an empty result list, a reranker
failure yields the raw list truncated to top_k), and in particular a total
inability to produce candidates does NOT yield success=false; the
success=false branch is reserved for exceptions escaping the step handlers,
which no combination of step outcomes triggers. -/
theorem C3_retrieve (env : OrchestratorEnv) (req : AdvancedQueryRequest) :
    (retrieve env req).success = true ∧
    (retrieve env req).error = none ∧
    (∀ e1 e2 e3, env.hybridOutcome = Except.error e1 →
      env.hierarchicalOutcome = Except.error e2 →
      env.multiRepOutcome = Except.error e3 →
      (retrieve env req).results = []) ∧
    (∀ e, env.rerankOutcome = Except.error e →
      (retrieve env req).results = (_multi_strategy_retrieval env req).take req.top_k) := by
  refine ⟨rfl, rfl, ?_, ?_⟩
  · intro e1 e2 e3 h1 h2 h3
    have hraw : _multi_strategy_retrieval env req = [] := by
      simp only [_multi_strategy_retrieval, h1, h2, h3, strategyOutcome]
      simp [_deduplicate_and_merge, pySortDescBy]
    simp [retrieve, hraw]
  · intro e he
    simp only [retrieve]
    by_cases hg : req.use_reranking = true ∧ _multi_strategy_retrieval env req ≠ []
    · simp only [if_pos hg, he]
    · simp only [if_neg hg]

/-- C3 counterexample environment: every collaborator call fails. -/
def orchCexEnv : OrchestratorEnv :=
  { quOutcome := Except.error "qfail", hybridOutcome := Except.error "down",
    hierarchicalOutcome := Except.error "down", multiRepOutcome := Except.error "down",
    rerankOutcome := Except.error "down", llmOutcome := Except.error "down" }

/-- C3 counterexample request: the defaults of AdvancedQueryRequest. -/
def orchCexReq : AdvancedQueryRequest := { query := "q" }

/-- Counterexample for C3 as stated: when retrieval is totally unable to
produce any candidates (every strategy fails), the orchestrator still
returns success=true with an empty result list and no error, not
success=false with an explanatory error. -/
theorem C3_retrieve_counterexample :
    (retrieve orchCexEnv orchCexReq).results = [] ∧
    (retrieve orchCexEnv orchCexReq).success = true ∧
    (retrieve orchCexEnv orchCexReq).error = none := by
  have hraw : _multi_strategy_retrieval orchCexEnv orchCexReq = [] := by
    simp only [_multi_strategy_retrieval, orchCexEnv, orchCexReq, strategyOutcome]
    simp [_deduplicate_and_merge, pySortDescBy]
  exact ⟨by simp [retrieve, hraw], rfl, rfl⟩

/-- Witness for C3 at the concrete all-failure environment, through the
amended theorem. -/
theorem C3_retrieve_witness :
    (retrieve orchCexEnv orchCexReq).success = true ∧
    (retrieve orchCexEnv orchCexReq).results = [] := by
  refine ⟨(C3_retrieve orchCexEnv orchCexReq).1, ?_⟩
  exact (C3_retrieve orchCexEnv orchCexReq).2.2.1 "down" "down" "down" rfl rfl rfl

/-! # reranker.py: RuleBased, CrossEncoder, LLM and MultiStage rerankers

External collaborators are parameters: reSearch is the re.search engine
(pattern, text), cut is jieba.cut, ceModel the optional cross-encoder score
function (None when no model loaded), llmRanks the combination of the
language-model rerank call and the numbered-rank parsing, returning None for
a failed call and otherwise the parsed chunk_id→rank map with default 999,
exactly the reranked_map.get(chunk_id, 999) the source builds. -/

/-- The stop-word set of RuleBasedReranker._extract_keywords. -/
def stop_words : List String :=
  ["的", "了", "在", "是", "我", "有", "和", "就", "不", "人", "都", "一", "一个",
   "上", "也", "很", "到", "说", "要", "去", "你", "会", "着", "没有", "看", "好",
   "自己", "这"]

/-- RuleBasedReranker._extract_keywords: tokenize with jieba, drop one-letter
tokens and stop words. -/
def _extract_keywords (cut : String → List String) (query : String) : List String :=
  (cut query).filter (fun kw => kw.length > 1 && !(stop_words.contains kw))

/-- RuleBasedReranker._calculate_length_score with the configured length
preferences (min 50, optimal 200, max 1000, penalties 0.8 and 0.9). -/
def _calculate_length_score (length : Nat) : ℚ :=
  if length < 50 then (8:ℚ)/10
  else if length > 1000 then (9:ℚ)/10
  else if 50 ≤ length ∧ length ≤ 200 then 1
  else
    let r : ℚ := ((1000:ℚ) - length) / ((1000:ℚ) - 200)
    1 - (1 - (9:ℚ)/10) * (1 - r)

/-- The structured-content regexes of RuleBasedReranker._is_structured_content. -/
def structured_patterns : List String :=
  ["\\d+[.、]",
   "[（\\(][一二三四五六七八九十\\d]+[）\\)]",
   "第[一二三四五六七八九十\\d]+[条章节项]",
   "[一二三四五六七八九十\\d]+[、.]"]

/-- RuleBasedReranker._is_structured_content. -/
def _is_structured_content (reSearch : String → String → Bool) (content : String) : Bool :=
  structured_patterns.any (fun p => reSearch p content)

/-- RuleBasedReranker._has_title_match: at least half of the query keywords
occur in the first 100 characters (an empty keyword list trivially matches). -/
def _has_title_match (query_keywords : List String) (content : String) : Bool :=
  let title_part := String.mk (content.toList.take 100)
  let title_keywords := (query_keywords.filter (fun kw => pyContains title_part kw)).length
  decide ((title_keywords : ℚ) ≥ (query_keywords.length : ℚ) * ((5:ℚ)/10))

/-- The policy_section_preferences table of the rule set. -/
def policy_section_preferences : List (String × ℚ) :=
  [("申请条件", (3:ℚ)/2), ("服务对象", (7:ℚ)/5), ("支持内容", (13:ℚ)/10),
   ("申请流程", (6:ℚ)/5), ("联系方式", (11:ℚ)/10)]

/-- The value of RuleBasedReranker._calculate_rule_score when it returns:
exact-match boost ×1.5, keyword-overlap boost ×(1 + ratio·1.2),
keyword-density boost ×1.3, length preference, structured-content boost
×1.4, section preference, title-match boost ×1.6.  (The unused context
argument of the source is omitted.) -/
def ruleScoreVal (reSearch : String → String → Bool) (query : String)
    (query_keywords : List String) (candidate : RetrievalResult) : ℚ :=
  let content := pyLower candidate.content
  let query_lower := pyLower query
  let s1 : ℚ := if pyContains content query_lower then 1 * ((3:ℚ)/2) else 1
  let keyword_matches := (query_keywords.filter (fun kw => pyContains content kw)).length
  let s2 := if keyword_matches > 0 then
      s1 * (1 + ((keyword_matches : ℚ) / (query_keywords.length : ℚ)) * ((12:ℚ)/10))
    else s1
  let keyword_density : ℚ :=
    ((query_keywords.map (fun kw => (pyCount content kw : ℚ))).sum) / (content.length : ℚ)
  let s3 := if keyword_density > (1:ℚ)/100 then s2 * ((13:ℚ)/10) else s2
  let s4 := s3 * _calculate_length_score content.length
  let s5 := if _is_structured_content reSearch content then s4 * ((14:ℚ)/10) else s4
  let sectionVal := candidate.metadata.section_label.getD ""
  let s6 := match policy_section_preferences.find? (fun p => p.1 == sectionVal) with
    | some p => s5 * p.2
    | none => s5
  if _has_title_match query_keywords content then s6 * ((16:ℚ)/10) else s6

/-- RuleBasedReranker._calculate_rule_score.  The steps before the
keyword-density division are pure, so the only observable effect of an empty
content is the ZeroDivisionError raised by that division; the check is
equivalently hoisted to the front, and the successful value is ruleScoreVal. -/
def _calculate_rule_score (reSearch : String → String → Bool) (query : String)
    (query_keywords : List String) (candidate : RetrievalResult) : Except Unit ℚ :=
  if (pyLower candidate.content).length = 0 then Except.error ()
  else Except.ok (ruleScoreVal reSearch query query_keywords candidate)

/-- The per-candidate mutation of the RuleBasedReranker loop: blend
0.7·score + 0.3·ruleScore; the source stores original_score after the
reassignment, so it records the blended value. -/
def ruleScoreBlend (c : RetrievalResult) (rule_score : ℚ) : RetrievalResult :=
  { c with score := (7:ℚ)/10 * c.score + (3:ℚ)/10 * rule_score,
           metadata := { c.metadata with
             rule_score := some rule_score,
             original_score := some ((7:ℚ)/10 * c.score + (3:ℚ)/10 * rule_score) } }

/-- The loop of RuleBasedReranker.rerank.  An exception raised mid-loop
leaves the earlier candidates already re-scored (the shared objects were
mutated in place) and the rest untouched; the pair's Bool reports success. -/
def ruleUpdateGo (reSearch : String → String → Bool) (query : String)
    (kws : List String) :
    List RetrievalResult → List RetrievalResult → List RetrievalResult × Bool
  | done, [] => (done, true)
  | done, c :: rest =>
    match _calculate_rule_score reSearch query kws c with
    | Except.error _ => (done ++ (c :: rest), false)
    | Except.ok rs => ruleUpdateGo reSearch query kws (done ++ [ruleScoreBlend c rs]) rest

/-- The single-candidate update on the success path. -/
def ruleUpd (reSearch : String → String → Bool) (query : String) (kws : List String)
    (c : RetrievalResult) : RetrievalResult :=
  ruleScoreBlend c (ruleScoreVal reSearch query kws c)

/-- RuleBasedReranker.rerank: keyword extraction, per-candidate re-scoring,
descending sort, truncation; on an exception the fallback returns the
partially re-scored list in input order, truncated, with success=False. -/
def RuleBasedReranker.rerank (reSearch : String → String → Bool)
    (cut : String → List String) (query : String)
    (candidates : List RetrievalResult) (top_k : Nat) : RerankResult :=
  if candidates = [] then
    { reranked_results := [], rerank_scores := [], method_used := "rule_based",
      success := true }
  else
    let query_keywords := _extract_keywords cut query
    let upd := ruleUpdateGo reSearch query query_keywords [] candidates
    if upd.2 then
      let sorted := pySortDescBy (fun r => r.score) upd.1
      { reranked_results := sorted.take top_k,
        rerank_scores := (sorted.take top_k).map (fun r => r.score),
        method_used := "rule_based", success := true }
    else
      { reranked_results := upd.1.take top_k, rerank_scores := [],
        method_used := "fallback", success := false, error := some "ZeroDivisionError" }

/-- CrossEncoderReranker.rerank.  Every return path of the source slices
with the caller-supplied top_k; a float top_k (carried here as Except.error)
makes each of those slices, including the one in the except handler, raise
TypeError, so the error propagates to the caller. -/
def CrossEncoderReranker.rerank (model : Option (String → String → ℚ))
    (query : String) (candidates : List RetrievalResult)
    (top_kE : Except Unit Nat) : Except Unit RerankResult :=
  if model.isNone || candidates.isEmpty then
    match top_kE with
    | Except.error e => Except.error e
    | Except.ok n =>
      Except.ok { reranked_results := candidates.take n,
                  rerank_scores := [],
                  method_used := "fallback", success := false,
                  error := some "cross-encoder model not loaded" }
  else
    let f := model.getD (fun _ _ => 0)
    let scores := candidates.map (fun c => f query (String.mk (c.content.toList.take 512)))
    let updated := candidates.map (fun c =>
      let s := f query (String.mk (c.content.toList.take 512))
      let new_score := (7:ℚ)/10 * s + (3:ℚ)/10 * c.score
      { c with score := new_score,
               metadata := { c.metadata with
                 rerank_score := some s,
                 original_score := some new_score } })
    let sorted := pySortDescBy (fun r => r.score) updated
    match top_kE with
    | Except.error e => Except.error e
    | Except.ok n =>
      Except.ok { reranked_results := sorted.take n,
                  rerank_scores := scores,
                  method_used := "cross_encoder", success := true }

/-- Stage 2 of MultiStage computes min(request.top_k * 1.5, len(candidates)).
In Python top_k * 1.5 is a float, min returns the int len only when
len < 1.5·top_k, and a float is never a valid slice index, so the computed
bound is usable exactly when len < 1.5·top_k. -/
def stage2TopK (top_k len : Nat) : Except Unit Nat :=
  if (len : ℚ) < (3:ℚ)/2 * (top_k : ℚ) then Except.ok len else Except.error ()

/-- The batch slices range(0, len, batch_size) of LLMReranker.rerank (the
source raises on a zero step; the configured batch size is 5). -/
def pyBatches {α : Type} : Nat → List α → List (List α)
  | _, [] => []
  | 0, _ :: _ => []
  | n + 1, a :: rest => ((a :: rest).take (n + 1)) :: pyBatches (n + 1) (rest.drop n)
termination_by _ l => l.length
decreasing_by
  simp only [List.length_cons, List.length_drop]
  omega

/-- LLMReranker._rerank_batch composed with _parse_llm_rerank_response: on a
failed call the batch passes through; otherwise the batch is stably sorted
by the parsed rank (999 for unranked entries) and ranked entries are
re-scored with 0.6/(rank+1) + 0.4·score. -/
def _rerank_batch (llmRanks : List RetrievalResult → Option (String → Nat))
    (batch : List RetrievalResult) : List RetrievalResult :=
  match llmRanks batch with
  | none => batch
  | some f =>
    let sorted_results := batch.mergeSort (fun a b => decide (f a.chunk_id ≤ f b.chunk_id))
    sorted_results.map (fun r =>
      if f r.chunk_id ≠ 999 then
        { r with score := (6:ℚ)/10 * (1 / ((f r.chunk_id : ℚ) + 1)) + (4:ℚ)/10 * r.score,
                 metadata := { r.metadata with llm_rank := some (f r.chunk_id) } }
      else r)

/-- LLMReranker.rerank: batch, rerank each batch, concatenate, sort
descending, truncate. -/
def LLMReranker.rerank (batch_size : Nat)
    (llmRanks : List RetrievalResult → Option (String → Nat))
    (candidates : List RetrievalResult) (top_k : Nat) : RerankResult :=
  if candidates = [] then
    { reranked_results := [], rerank_scores := [], method_used := "llm_rerank",
      success := true }
  else
    let all_reranked := ((pyBatches batch_size candidates).map (_rerank_batch llmRanks)).flatten
    let sorted := pySortDescBy (fun r => r.score) all_reranked
    { reranked_results := sorted.take top_k,
      rerank_scores := (sorted.take top_k).map (fun r => r.score),
      method_used := "llm_rerank", success := true }

/-- The config switches read by MultiStageReranker (config.py sets all three
to True / 5). -/
structure RerankConfig where
  rerank_enabled : Bool := true
  llm_rerank_enabled : Bool := true
  llm_rerank_batch_size : Nat := 5

/-- reranker.RerankRequest (the optional context dict is never read by the
embedded rerankers and is omitted). -/
structure RerankRequest where
  query : String
  candidates : List RetrievalResult
  reranker_type : RerankerType := RerankerType.MULTI_STAGE
  top_k : Nat := 10

/-- Ghost trace of one MultiStageReranker.rerank run: which stages ran and
the candidate list after each, mirroring the local variable evolution. -/
structure MultiStageTrace where
  stage1Ran : Bool
  afterStage1 : List RetrievalResult
  stage2Ran : Bool
  stage2Error : Bool
  afterStage2 : List RetrievalResult
  stage3Ran : Bool
  afterStage3 : List RetrievalResult

/-- Stage 1 of MultiStage: RuleBased runs when the candidate count exceeds
2·top_k and is asked for top_k*2 results. -/
def multiStageC1 (reSearch : String → String → Bool) (cut : String → List String)
    (request : RerankRequest) : List RetrievalResult :=
  if request.candidates.length > request.top_k * 2 then
    (RuleBasedReranker.rerank reSearch cut request.query request.candidates
      (request.top_k * 2)).reranked_results
  else request.candidates

/-- Stage 2 of MultiStage: CrossEncoder runs when reranking is enabled and
the count still exceeds top_k; its result is adopted only on success; a
TypeError from the float bound propagates.  The Bool reports adoption. -/
def multiStageS2 (cfg : RerankConfig) (ceModel : Option (String → String → ℚ))
    (request : RerankRequest) (c1 : List RetrievalResult) :
    Except Unit (List RetrievalResult × Bool) :=
  if cfg.rerank_enabled && decide (c1.length > request.top_k) then
    match CrossEncoderReranker.rerank ceModel request.query c1
        (stage2TopK request.top_k c1.length) with
    | Except.error e => Except.error e
    | Except.ok r => Except.ok ((if r.success then r.reranked_results else c1), r.success)
  else Except.ok (c1, false)

/-- Stage 3 of MultiStage: the LLM reranker runs when enabled and at most 20
candidates remain. -/
def multiStageC3 (cfg : RerankConfig)
    (llmRanks : List RetrievalResult → Option (String → Nat))
    (request : RerankRequest) (c2 : List RetrievalResult) : List RetrievalResult :=
  if cfg.llm_rerank_enabled && decide (c2.length ≤ 20) then
    (LLMReranker.rerank cfg.llm_rerank_batch_size llmRanks c2
      request.top_k).reranked_results
  else c2

/-- MultiStageReranker.rerank with its ghost trace.  On a TypeError escaping
stage 2 the except handler returns the original request candidates truncated
to top_k with success=False (the shared candidate objects may carry partial
re-scores in the source; candidate identity and counts are unaffected). -/
def MultiStageReranker.rerank (cfg : RerankConfig)
    (reSearch : String → String → Bool) (cut : String → List String)
    (ceModel : Option (String → String → ℚ))
    (llmRanks : List RetrievalResult → Option (String → Nat))
    (request : RerankRequest) : RerankResult × MultiStageTrace :=
  let c1 := multiStageC1 reSearch cut request
  match multiStageS2 cfg ceModel request c1 with
  | Except.error _ =>
    ({ reranked_results := request.candidates.take request.top_k, rerank_scores := [],
       method_used := "fallback", success := false, error := some "TypeError" },
     { stage1Ran := decide (request.candidates.length > request.top_k * 2),
       afterStage1 := c1,
       stage2Ran := cfg.rerank_enabled && decide (c1.length > request.top_k),
       stage2Error := true, afterStage2 := [], stage3Ran := false, afterStage3 := [] })
  | Except.ok c2b =>
    let c2 := c2b.1
    let stage3 := cfg.llm_rerank_enabled && decide (c2.length ≤ 20)
    let c3 := multiStageC3 cfg llmRanks request c2
    let stage_results : List (String × Nat) :=
      (if request.candidates.length > request.top_k * 2 then [("rule_based", c1.length)]
       else []) ++
      (if c2b.2 then [("cross_encoder", c2.length)] else []) ++
      (if stage3 then [("llm_rerank", c3.length)] else [])
    let final_results := (c3.take request.top_k).map (fun r =>
      { r with metadata := { r.metadata with
                 rerank_stages := stage_results,
                 final_rerank_method := some "multi_stage" } })
    ({ reranked_results := final_results,
       rerank_scores := final_results.map (fun r => r.score),
       method_used :=
         "multi_stage: " ++ String.intercalate " -> " (stage_results.map (fun p => p.1)),
       success := true },
     { stage1Ran := decide (request.candidates.length > request.top_k * 2),
       afterStage1 := c1,
       stage2Ran := cfg.rerank_enabled && decide (c1.length > request.top_k),
       stage2Error := false, afterStage2 := c2, stage3Ran := stage3, afterStage3 := c3 })

theorem ruleUpdateGo_length (reSearch : String → String → Bool) (query : String)
    (kws : List String) :
    ∀ (rest done : List RetrievalResult),
      ((ruleUpdateGo reSearch query kws done rest).1).length =
        done.length + rest.length := by
  intro rest
  induction rest with
  | nil =>
    intro done
    simp [ruleUpdateGo]
  | cons c t ih =>
    intro done
    rcases hcs : _calculate_rule_score reSearch query kws c with e | rs
    · simp only [ruleUpdateGo, hcs]
      simp
    · simp only [ruleUpdateGo, hcs]
      rw [ih]
      simp
      omega

theorem rule_rerank_length (reSearch : String → String → Bool)
    (cut : String → List String) (query : String)
    (candidates : List RetrievalResult) (top_k : Nat) :
    ((RuleBasedReranker.rerank reSearch cut query candidates top_k).reranked_results).length =
      min candidates.length top_k := by
  unfold RuleBasedReranker.rerank
  by_cases hc : candidates = []
  · simp [hc]
  · rw [if_neg hc]
    by_cases hu : (ruleUpdateGo reSearch query (_extract_keywords cut query) [] candidates).2
    · rw [if_pos hu]
      simp only [List.length_take, pySortDescBy, List.length_mergeSort]
      rw [ruleUpdateGo_length]
      simp [Nat.min_comm]
    · rw [if_neg hu]
      simp only [List.length_take]
      rw [ruleUpdateGo_length]
      simp [Nat.min_comm]

theorem cross_rerank_err (model : Option (String → String → ℚ)) (query : String)
    (candidates : List RetrievalResult) (e : Unit) :
    CrossEncoderReranker.rerank model query candidates (Except.error e) =
      Except.error e := by
  unfold CrossEncoderReranker.rerank
  by_cases h : model.isNone || candidates.isEmpty
  · rw [if_pos h]
  · rw [if_neg h]

theorem cross_rerank_ok_length (model : Option (String → String → ℚ)) (query : String)
    (candidates : List RetrievalResult) (n : Nat) (res : RerankResult)
    (h : CrossEncoderReranker.rerank model query candidates (Except.ok n) = Except.ok res) :
    res.reranked_results.length = min n candidates.length := by
  unfold CrossEncoderReranker.rerank at h
  by_cases hg : model.isNone || candidates.isEmpty
  · rw [if_pos hg] at h
    have h2 := Except.ok.inj h
    rw [← h2]
    simp [List.length_take]
  · rw [if_neg hg] at h
    have h2 := Except.ok.inj h
    rw [← h2]
    simp [List.length_take, pySortDescBy, List.length_mergeSort]

theorem stage2TopK_ok (top_k len n : Nat) (h : stage2TopK top_k len = Except.ok n) :
    n = len := by
  unfold stage2TopK at h
  by_cases hc : (len : ℚ) < (3:ℚ)/2 * (top_k : ℚ)
  · rw [if_pos hc] at h
    exact (Except.ok.inj h).symm
  · rw [if_neg hc] at h
    exact absurd h (by simp)

theorem multiStageS2_ok_length (cfg : RerankConfig)
    (ceModel : Option (String → String → ℚ)) (request : RerankRequest)
    (c1 : List RetrievalResult) (c2b : List RetrievalResult × Bool)
    (h : multiStageS2 cfg ceModel request c1 = Except.ok c2b) :
    c2b.1.length = c1.length := by
  unfold multiStageS2 at h
  by_cases hg : cfg.rerank_enabled && decide (c1.length > request.top_k)
  · rw [if_pos hg] at h
    rcases hs : stage2TopK request.top_k c1.length with u | n
    · rw [hs, cross_rerank_err] at h
      exact absurd h (by simp)
    · rw [hs] at h
      rcases hce : CrossEncoderReranker.rerank ceModel request.query c1 (Except.ok n) with e | r
      · rw [hce] at h
        exact absurd h (by simp)
      · rw [hce] at h
        have h2 := Except.ok.inj h
        rw [← h2]
        by_cases hsucc : r.success
        · simp only [hsucc, if_pos]
          have := cross_rerank_ok_length ceModel request.query c1 n r hce
          rw [stage2TopK_ok request.top_k c1.length n hs] at this
          simpa using this
        · simp [hsucc]
  · rw [if_neg hg] at h
    have h2 := Except.ok.inj h
    rw [← h2]

theorem pyBatches_flatten {α : Type} (n : Nat) :
    ∀ (k : Nat) (l : List α), l.length ≤ k → (pyBatches (n + 1) l).flatten = l := by
  intro k
  induction k with
  | zero =>
    intro l hl
    have hnil : l = [] := List.eq_nil_of_length_eq_zero (Nat.le_zero.mp hl)
    subst hnil
    simp [pyBatches]
  | succ k ih =>
    intro l hl
    cases l with
    | nil => simp [pyBatches]
    | cons a rest =>
      simp only [List.length_cons, Nat.add_le_add_iff_right] at hl
      simp only [pyBatches, List.flatten_cons]
      rw [ih (rest.drop n) (by rw [List.length_drop]; omega)]
      rw [List.take_succ_cons, List.cons_append, List.take_append_drop]

theorem rerank_batch_length (llmRanks : List RetrievalResult → Option (String → Nat))
    (b : List RetrievalResult) :
    (_rerank_batch llmRanks b).length = b.length := by
  cases h : llmRanks b <;> simp [_rerank_batch, h, List.length_mergeSort]

theorem llm_rerank_length (batch_size : Nat)
    (llmRanks : List RetrievalResult → Option (String → Nat))
    (candidates : List RetrievalResult) (top_k : Nat) (hb : 1 ≤ batch_size) :
    ((LLMReranker.rerank batch_size llmRanks candidates top_k).reranked_results).length =
      min candidates.length top_k := by
  obtain ⟨m, rfl⟩ : ∃ m, batch_size = m + 1 := ⟨batch_size - 1, by omega⟩
  unfold LLMReranker.rerank
  by_cases hc : candidates = []
  · rw [if_pos hc]
    simp [hc]
  · rw [if_neg hc]
    have hfl : (((pyBatches (m + 1) candidates).map (_rerank_batch llmRanks)).flatten).length
        = candidates.length := by
      have h1 : ∀ L : List (List RetrievalResult),
          ((L.map (_rerank_batch llmRanks)).flatten).length = L.flatten.length := by
        intro L
        induction L with
        | nil => rfl
        | cons b t iht => simp [List.flatten_cons, iht, rerank_batch_length]
      rw [h1, pyBatches_flatten m candidates.length candidates (le_refl _)]
    simp only [List.length_take, pySortDescBy, List.length_mergeSort, hfl, Nat.min_comm]

theorem multiStageC1_le (reSearch : String → String → Bool) (cut : String → List String)
    (request : RerankRequest) :
    (multiStageC1 reSearch cut request).length ≤ request.candidates.length := by
  unfold multiStageC1
  by_cases h : request.candidates.length > request.top_k * 2
  · rw [if_pos h, rule_rerank_length]
    exact min_le_left _ _
  · rw [if_neg h]

theorem multiStageC1_big (reSearch : String → String → Bool) (cut : String → List String)
    (request : RerankRequest) (h : request.candidates.length > request.top_k * 2) :
    (multiStageC1 reSearch cut request).length = request.top_k * 2 := by
  unfold multiStageC1
  rw [if_pos h, rule_rerank_length]
  omega

theorem multiStageC3_le (cfg : RerankConfig)
    (llmRanks : List RetrievalResult → Option (String → Nat))
    (request : RerankRequest) (c2 : List RetrievalResult)
    (hb : 1 ≤ cfg.llm_rerank_batch_size) :
    (multiStageC3 cfg llmRanks request c2).length ≤ c2.length := by
  unfold multiStageC3
  by_cases h : cfg.llm_rerank_enabled && decide (c2.length ≤ 20)
  · rw [if_pos h, llm_rerank_length cfg.llm_rerank_batch_size llmRanks c2 request.top_k hb]
    exact min_le_left _ _
  · rw [if_neg h]

/-- Claim C5 (amended): in a MultiStage rerank run, the RuleBased stage runs
exactly when the candidate count exceeds 2·top_k and then shrinks the set to
exactly 2·top_k (not 1.5·top_k); the CrossEncoder stage runs exactly when
reranking is enabled and the count still exceeds top_k; when stage 2 raises
the TypeError from its float bound the whole rerank falls back to the first
top_k original candidates with success = false; otherwise stage 2 preserves
the count, the LLM stage runs exactly when enabled and at most 20 candidates
remain and never grows the set, and the final result has at most top_k
candidates. -/
theorem C5_multi_stage (cfg : RerankConfig) (reSearch : String → String → Bool)
    (cut : String → List String) (ceModel : Option (String → String → ℚ))
    (llmRanks : List RetrievalResult → Option (String → Nat))
    (request : RerankRequest) (hb : 1 ≤ cfg.llm_rerank_batch_size)
    (res : RerankResult) (tr : MultiStageTrace)
    (h : MultiStageReranker.rerank cfg reSearch cut ceModel llmRanks request = (res, tr)) :
    tr.stage1Ran = decide (request.candidates.length > request.top_k * 2) ∧
    (tr.stage1Ran = true → tr.afterStage1.length = request.top_k * 2) ∧
    tr.afterStage1.length ≤ request.candidates.length ∧
    tr.stage2Ran = (cfg.rerank_enabled && decide (tr.afterStage1.length > request.top_k)) ∧
    (tr.stage2Error = true →
      res.success = false ∧
      res.reranked_results = request.candidates.take request.top_k) ∧
    (tr.stage2Error = false →
      tr.afterStage2.length = tr.afterStage1.length ∧
      tr.stage3Ran = (cfg.llm_rerank_enabled && decide (tr.afterStage2.length ≤ 20)) ∧
      tr.afterStage3.length ≤ tr.afterStage2.length) ∧
    res.reranked_results.length ≤ request.top_k := by
  unfold MultiStageReranker.rerank at h
  rcases hs2 : multiStageS2 cfg ceModel request (multiStageC1 reSearch cut request)
    with e | c2b
  · simp only [hs2] at h
    rw [Prod.mk.injEq] at h
    obtain ⟨hres, htr⟩ := h
    subst hres
    subst htr
    refine ⟨rfl, ?_, ?_, rfl, ?_, ?_, ?_⟩
    · intro h1
      exact multiStageC1_big reSearch cut request (of_decide_eq_true h1)
    · exact multiStageC1_le reSearch cut request
    · intro _
      exact ⟨rfl, rfl⟩
    · intro h6
      simp at h6
    · exact List.length_take_le _ _
  · simp only [hs2] at h
    rw [Prod.mk.injEq] at h
    obtain ⟨hres, htr⟩ := h
    subst hres
    subst htr
    refine ⟨rfl, ?_, ?_, rfl, ?_, ?_, ?_⟩
    · intro h1
      exact multiStageC1_big reSearch cut request (of_decide_eq_true h1)
    · exact multiStageC1_le reSearch cut request
    · intro h5
      simp at h5
    · intro _
      refine ⟨?_, rfl, ?_⟩
      · exact multiStageS2_ok_length cfg ceModel request _ c2b hs2
      · exact multiStageC3_le cfg llmRanks request c2b.1 hb
    · simp only [List.length_map, List.length_take]
      exact min_le_left _ _

def msCexSearch : String → String → Bool := fun _ _ => false

def msCexCut : String → List String := fun _ => []

def msCexRequest : RerankRequest :=
  { query := "q", candidates := mkCandidates 21, top_k := 10 }

def msCexConfig : RerankConfig :=
  { rerank_enabled := false, llm_rerank_enabled := false, llm_rerank_batch_size := 5 }

/-- Counterexample to the original claim C5: with 21 candidates and
top_k = 10 the RuleBased stage runs but shrinks the set to 20 = 2·top_k
candidates, not to about 1.5·top_k = 15 as claimed. -/
theorem C5_multi_stage_counterexample :
    msCexRequest.top_k = 10 ∧
    (MultiStageReranker.rerank msCexConfig msCexSearch msCexCut none (fun _ => none)
        msCexRequest).2.stage1Ran = true ∧
    ((MultiStageReranker.rerank msCexConfig msCexSearch msCexCut none (fun _ => none)
        msCexRequest).2.afterStage1).length = 2 * msCexRequest.top_k ∧
    ((MultiStageReranker.rerank msCexConfig msCexSearch msCexCut none (fun _ => none)
        msCexRequest).2.afterStage1).length ≠ 15 := by
  have hgt : msCexRequest.candidates.length > msCexRequest.top_k * 2 := by
    simp [msCexRequest, mkCandidates_length]
  have hs2 : multiStageS2 msCexConfig none msCexRequest
      (multiStageC1 msCexSearch msCexCut msCexRequest) =
      Except.ok (multiStageC1 msCexSearch msCexCut msCexRequest, false) := by
    simp [multiStageS2, msCexConfig]
  have hA : (MultiStageReranker.rerank msCexConfig msCexSearch msCexCut none (fun _ => none)
      msCexRequest).2.afterStage1 = multiStageC1 msCexSearch msCexCut msCexRequest := by
    simp only [MultiStageReranker.rerank, hs2]
  have hS : (MultiStageReranker.rerank msCexConfig msCexSearch msCexCut none (fun _ => none)
      msCexRequest).2.stage1Ran =
      decide (msCexRequest.candidates.length > msCexRequest.top_k * 2) := by
    simp only [MultiStageReranker.rerank, hs2]
  have hlen : (multiStageC1 msCexSearch msCexCut msCexRequest).length = 20 := by
    rw [multiStageC1_big msCexSearch msCexCut msCexRequest hgt]
    decide
  refine ⟨rfl, ?_, ?_, ?_⟩
  · rw [hS]
    exact decide_eq_true hgt
  · rw [hA, hlen]
    decide
  · rw [hA, hlen]
    decide

def msWitnessConfig : RerankConfig := {}

def msWitnessRequest : RerankRequest :=
  { query := "q", candidates := mkCandidates 3, top_k := 1 }

/-- Witness for C5 at a concrete input: 3 candidates, top_k = 1, default
config; stage 1 runs and yields 2 candidates, and the final result has at
most one. -/
theorem C5_multi_stage_witness :
    1 ≤ msWitnessConfig.llm_rerank_batch_size ∧
    (MultiStageReranker.rerank msWitnessConfig msCexSearch msCexCut none (fun _ => none)
        msWitnessRequest).2.stage1Ran = true ∧
    ((MultiStageReranker.rerank msWitnessConfig msCexSearch msCexCut none (fun _ => none)
        msWitnessRequest).2.afterStage1).length = msWitnessRequest.top_k * 2 ∧
    ((MultiStageReranker.rerank msWitnessConfig msCexSearch msCexCut none (fun _ => none)
        msWitnessRequest).1.reranked_results).length ≤ msWitnessRequest.top_k := by
  have h := C5_multi_stage msWitnessConfig msCexSearch msCexCut none (fun _ => none)
    msWitnessRequest (by decide)
    (MultiStageReranker.rerank msWitnessConfig msCexSearch msCexCut none (fun _ => none)
      msWitnessRequest).1
    (MultiStageReranker.rerank msWitnessConfig msCexSearch msCexCut none (fun _ => none)
      msWitnessRequest).2 rfl
  have hgt : msWitnessRequest.candidates.length > msWitnessRequest.top_k * 2 := by
    simp [msWitnessRequest, mkCandidates_length]
  refine ⟨by decide, ?_, ?_, h.2.2.2.2.2.2⟩
  · rw [h.1]
    exact decide_eq_true hgt
  · exact h.2.1 (by rw [h.1]; exact decide_eq_true hgt)

theorem ruleUpdateGo_ok (reSearch : String → String → Bool) (query : String)
    (kws : List String) :
    ∀ (rest done : List RetrievalResult),
      (∀ c ∈ rest, (pyLower c.content).length ≠ 0) →
      ruleUpdateGo reSearch query kws done rest =
        (done ++ rest.map (ruleUpd reSearch query kws), true) := by
  intro rest
  induction rest with
  | nil =>
    intro done _
    simp [ruleUpdateGo]
  | cons c t ih =>
    intro done hne
    have hc : (pyLower c.content).length ≠ 0 := hne c (List.mem_cons_self c t)
    have hcs : _calculate_rule_score reSearch query kws c =
        Except.ok (ruleScoreVal reSearch query kws c) := by
      unfold _calculate_rule_score
      rw [if_neg hc]
    simp only [ruleUpdateGo, hcs]
    rw [ih (done ++ [ruleScoreBlend c (ruleScoreVal reSearch query kws c)])
      (fun d hd => hne d (List.mem_cons_of_mem c hd))]
    simp [ruleUpd, List.append_assoc]

theorem rule_rerank_success (reSearch : String → String → Bool)
    (cut : String → List String) (query : String)
    (candidates : List RetrievalResult) (top_k : Nat)
    (hne : ∀ c ∈ candidates, (pyLower c.content).length ≠ 0) :
    (RuleBasedReranker.rerank reSearch cut query candidates top_k).reranked_results =
      (pySortDescBy (fun r => r.score)
        (candidates.map (ruleUpd reSearch query (_extract_keywords cut query)))).take
        top_k := by
  unfold RuleBasedReranker.rerank
  by_cases hc : candidates = []
  · subst hc
    simp [pySortDescBy]
  · rw [if_neg hc]
    simp only [ruleUpdateGo_ok reSearch query (_extract_keywords cut query) candidates [] hne]
    simp

theorem pySortDescBy_pair_sublist {α : Type} (score : α → ℚ) (a b : α) (l : List α)
    (hab : score b ≤ score a) (h : List.Sublist [a, b] l) :
    List.Sublist [a, b] (pySortDescBy score l) := by
  unfold pySortDescBy
  refine List.pair_sublist_mergeSort ?_ ?_ (decide_eq_true hab) h
  · intro x y z h1 h2
    exact decide_eq_true (le_trans (of_decide_eq_true h2) (of_decide_eq_true h1))
  · intro x y
    rcases le_total (score y) (score x) with hxy | hxy
    · simp [hxy]
    · simp [hxy]

theorem pySortDescBy_of_sorted {α : Type} (score : α → ℚ) (l : List α)
    (h : l.Pairwise (fun a b => score b ≤ score a)) :
    pySortDescBy score l = l := by
  unfold pySortDescBy
  exact List.mergeSort_of_sorted (h.imp (fun hab => decide_eq_true hab))

theorem pySortDescBy_pair_lt {α : Type} (score : α → ℚ) (a b : α)
    (h : score a < score b) : pySortDescBy score [a, b] = [b, a] := by
  unfold pySortDescBy
  simp [List.mergeSort, List.splitInTwo, List.splitAt, List.splitAt.go, List.merge,
        decide_eq_false (not_le.mpr h)]

theorem ruleScoreVal_congr (reSearch : String → String → Bool) (query : String)
    (kws : List String) (c d : RetrievalResult) (hc : c.content = d.content)
    (hs : c.metadata.section_label = d.metadata.section_label) :
    ruleScoreVal reSearch query kws c = ruleScoreVal reSearch query kws d := by
  unfold ruleScoreVal
  rw [hc, hs]

/-- Claim C9 (amended): a second RuleBased application to the output of a
first one does not in general keep the chunk_id ordering, and ties are not
broken by chunk_id: the second pass re-blends every score
(s becomes 0.7·s + 0.3·rule) and stably re-sorts, so its output is exactly
the descending stable sort of the re-blended first-pass results — a
permutation of them, sorted by the new scores, with ties keeping the
first-pass order — and the ordering is unchanged precisely when the
re-blended scores are already descending. -/
theorem C9_rule_rerank (reSearch : String → String → Bool)
    (cut : String → List String) (query : String)
    (candidates : List RetrievalResult) (top_k : Nat)
    (hne : ∀ c ∈ candidates, (pyLower c.content).length ≠ 0) :
    ∀ r1 u r2,
      r1 = (RuleBasedReranker.rerank reSearch cut query candidates top_k).reranked_results →
      u = r1.map (ruleUpd reSearch query (_extract_keywords cut query)) →
      r2 = (RuleBasedReranker.rerank reSearch cut query r1 top_k).reranked_results →
      List.Perm r2 u ∧
      r2.Pairwise (fun a b => b.score ≤ a.score) ∧
      (∀ a b, List.Sublist [a, b] u → b.score ≤ a.score → List.Sublist [a, b] r2) ∧
      (u.Pairwise (fun a b => b.score ≤ a.score) → r2 = u) := by
  intro r1 u r2 h1 hu h2
  have hr1 : r1 = (pySortDescBy (fun r => r.score)
      (candidates.map (ruleUpd reSearch query (_extract_keywords cut query)))).take top_k := by
    rw [h1, rule_rerank_success reSearch cut query candidates top_k hne]
  have hr1ne : ∀ c ∈ r1, (pyLower c.content).length ≠ 0 := by
    intro c hcmem
    rw [hr1] at hcmem
    have hc2 := List.mem_of_mem_take hcmem
    have hc3 := (pySortDescBy_perm (fun r : RetrievalResult => r.score)
      (candidates.map (ruleUpd reSearch query (_extract_keywords cut query)))).mem_iff.mp hc2
    obtain ⟨d, hd, hde⟩ := List.mem_map.mp hc3
    rw [← hde]
    exact hne d hd
  have hr1len : r1.length ≤ top_k := by
    rw [hr1]
    exact List.length_take_le _ _
  have hr2 : r2 = pySortDescBy (fun r => r.score) u := by
    rw [h2, rule_rerank_success reSearch cut query r1 top_k hr1ne, ← hu]
    apply List.take_of_length_le
    have hul : (pySortDescBy (fun r => r.score) u).length = u.length := by
      unfold pySortDescBy
      exact List.length_mergeSort u
    rw [hul, hu, List.length_map]
    exact hr1len
  refine ⟨?_, ?_, ?_, ?_⟩
  · rw [hr2]
    exact pySortDescBy_perm _ _
  · rw [hr2]
    exact pySortDescBy_sorted _ _
  · intro a b hsub hba
    rw [hr2]
    exact pySortDescBy_pair_sublist _ a b u hba hsub
  · intro hsorted
    rw [hr2]
    exact pySortDescBy_of_sorted _ u hsorted

theorem has_title_match_nil (content : String) : _has_title_match [] content = true := by
  unfold _has_title_match
  simp

def c9A : RetrievalResult := { chunk_id := "A", content := "aa", score := 1 }

def c9B : RetrievalResult :=
  { chunk_id := "B", content := "aa", score := (1:ℚ)/2,
    metadata := { section_label := some "申请条件" } }

/-- Counterexample to the original claim C9: on the deduplicated pair
c9A, c9B the first RuleBased pass orders the chunk_ids as A then B, but a
second pass re-blends the scores and returns B then A, so reranking twice
does not preserve the ordering. -/
theorem C9_rule_rerank_counterexample :
    (((RuleBasedReranker.rerank msCexSearch msCexCut "q" [c9A, c9B] 10).reranked_results).map
      (fun r => r.chunk_id) = ["A", "B"]) ∧
    (((RuleBasedReranker.rerank msCexSearch msCexCut "q"
        ((RuleBasedReranker.rerank msCexSearch msCexCut "q" [c9A, c9B] 10).reranked_results)
        10).reranked_results).map (fun r => r.chunk_id) = ["B", "A"]) := by
  have hkws : _extract_keywords msCexCut "q" = [] := rfl
  have hvA : ruleScoreVal msCexSearch "q" [] c9A = 32/25 := by
    simp only [ruleScoreVal]
    rw [show pyContains (pyLower c9A.content) (pyLower "q") = false from by decide]
    rw [show _is_structured_content msCexSearch (pyLower c9A.content) = false from by decide]
    rw [has_title_match_nil]
    rw [show (pyLower c9A.content).length = 2 from by decide]
    rw [show c9A.metadata.section_label.getD "" = "" from rfl]
    rw [show policy_section_preferences.find? (fun p => p.1 == "") = none from by decide]
    norm_num [_calculate_length_score]
  have hvB : ruleScoreVal msCexSearch "q" [] c9B = 48/25 := by
    simp only [ruleScoreVal]
    rw [show pyContains (pyLower c9B.content) (pyLower "q") = false from by decide]
    rw [show _is_structured_content msCexSearch (pyLower c9B.content) = false from by decide]
    rw [has_title_match_nil]
    rw [show (pyLower c9B.content).length = 2 from by decide]
    rw [show c9B.metadata.section_label.getD "" = "申请条件" from rfl]
    rw [show policy_section_preferences = ("申请条件", (3:ℚ)/2) ::
      [("服务对象", (7:ℚ)/5), ("支持内容", (13:ℚ)/10), ("申请流程", (6:ℚ)/5),
       ("联系方式", (11:ℚ)/10)] from rfl]
    rw [List.find?_cons_of_pos _ (by decide)]
    norm_num [_calculate_length_score]
  have hsA1 : (ruleUpd msCexSearch "q" [] c9A).score = 271/250 := by
    show (7:ℚ)/10 * c9A.score + (3:ℚ)/10 * ruleScoreVal msCexSearch "q" [] c9A = 271/250
    rw [hvA, show c9A.score = 1 from rfl]
    norm_num
  have hsB1 : (ruleUpd msCexSearch "q" [] c9B).score = 463/500 := by
    show (7:ℚ)/10 * c9B.score + (3:ℚ)/10 * ruleScoreVal msCexSearch "q" [] c9B = 463/500
    rw [hvB, show c9B.score = (1:ℚ)/2 from rfl]
    norm_num
  have hne1 : ∀ c ∈ [c9A, c9B], (pyLower c.content).length ≠ 0 := by
    intro c hc
    fin_cases hc <;> decide
  have hr1 : (RuleBasedReranker.rerank msCexSearch msCexCut "q" [c9A, c9B] 10).reranked_results
      = [ruleUpd msCexSearch "q" [] c9A, ruleUpd msCexSearch "q" [] c9B] := by
    rw [rule_rerank_success msCexSearch msCexCut "q" [c9A, c9B] 10 hne1, hkws]
    rw [show [c9A, c9B].map (ruleUpd msCexSearch "q" []) =
      [ruleUpd msCexSearch "q" [] c9A, ruleUpd msCexSearch "q" [] c9B] from rfl]
    rw [pySortDescBy_of_sorted (fun r => r.score)
      [ruleUpd msCexSearch "q" [] c9A, ruleUpd msCexSearch "q" [] c9B] ?hs]
    case hs =>
      refine List.pairwise_cons.mpr ⟨?_, List.pairwise_singleton _ _⟩
      intro b hb
      rw [List.mem_singleton] at hb
      subst hb
      show (ruleUpd msCexSearch "q" [] c9B).score ≤ (ruleUpd msCexSearch "q" [] c9A).score
      rw [hsA1, hsB1]
      norm_num
    apply List.take_of_length_le
    simp
  have hvA2 : ruleScoreVal msCexSearch "q" [] (ruleUpd msCexSearch "q" [] c9A) = 32/25 := by
    rw [ruleScoreVal_congr msCexSearch "q" [] (ruleUpd msCexSearch "q" [] c9A) c9A rfl rfl,
      hvA]
  have hvB2 : ruleScoreVal msCexSearch "q" [] (ruleUpd msCexSearch "q" [] c9B) = 48/25 := by
    rw [ruleScoreVal_congr msCexSearch "q" [] (ruleUpd msCexSearch "q" [] c9B) c9B rfl rfl,
      hvB]
  have hsA2 : (ruleUpd msCexSearch "q" [] (ruleUpd msCexSearch "q" [] c9A)).score
      = 2857/2500 := by
    show (7:ℚ)/10 * (ruleUpd msCexSearch "q" [] c9A).score + (3:ℚ)/10 *
      ruleScoreVal msCexSearch "q" [] (ruleUpd msCexSearch "q" [] c9A) = 2857/2500
    rw [hsA1, hvA2]
    norm_num
  have hsB2 : (ruleUpd msCexSearch "q" [] (ruleUpd msCexSearch "q" [] c9B)).score
      = 6121/5000 := by
    show (7:ℚ)/10 * (ruleUpd msCexSearch "q" [] c9B).score + (3:ℚ)/10 *
      ruleScoreVal msCexSearch "q" [] (ruleUpd msCexSearch "q" [] c9B) = 6121/5000
    rw [hsB1, hvB2]
    norm_num
  have hne2 : ∀ c ∈ [ruleUpd msCexSearch "q" [] c9A, ruleUpd msCexSearch "q" [] c9B],
      (pyLower c.content).length ≠ 0 := by
    intro c hc
    fin_cases hc <;> decide
  have hr2 : (RuleBasedReranker.rerank msCexSearch msCexCut "q"
      [ruleUpd msCexSearch "q" [] c9A, ruleUpd msCexSearch "q" [] c9B] 10).reranked_results
      = [ruleUpd msCexSearch "q" [] (ruleUpd msCexSearch "q" [] c9B),
         ruleUpd msCexSearch "q" [] (ruleUpd msCexSearch "q" [] c9A)] := by
    rw [rule_rerank_success msCexSearch msCexCut "q"
      [ruleUpd msCexSearch "q" [] c9A, ruleUpd msCexSearch "q" [] c9B] 10 hne2, hkws]
    rw [show [ruleUpd msCexSearch "q" [] c9A, ruleUpd msCexSearch "q" [] c9B].map
        (ruleUpd msCexSearch "q" []) =
      [ruleUpd msCexSearch "q" [] (ruleUpd msCexSearch "q" [] c9A),
       ruleUpd msCexSearch "q" [] (ruleUpd msCexSearch "q" [] c9B)] from rfl]
    rw [pySortDescBy_pair_lt (fun r => r.score)
      (ruleUpd msCexSearch "q" [] (ruleUpd msCexSearch "q" [] c9A))
      (ruleUpd msCexSearch "q" [] (ruleUpd msCexSearch "q" [] c9B))
      (by show (ruleUpd msCexSearch "q" [] (ruleUpd msCexSearch "q" [] c9A)).score <
            (ruleUpd msCexSearch "q" [] (ruleUpd msCexSearch "q" [] c9B)).score
          rw [hsA2, hsB2]
          norm_num)]
    apply List.take_of_length_le
    simp
  refine ⟨?_, ?_⟩
  · rw [hr1]
    rfl
  · rw [hr1, hr2]
    rfl

def c9WitnessCands : List RetrievalResult :=
  [{ chunk_id := "w", content := "ab", score := 1 }]

/-- Witness for C9 at a concrete input: the nonempty-content hypothesis
holds for the singleton candidate list and the second RuleBased pass is a
permutation of the re-blended first-pass results. -/
theorem C9_rule_rerank_witness :
    (∀ c ∈ c9WitnessCands, (pyLower c.content).length ≠ 0) ∧
    List.Perm
      ((RuleBasedReranker.rerank msCexSearch msCexCut "q"
        ((RuleBasedReranker.rerank msCexSearch msCexCut "q" c9WitnessCands
          10).reranked_results) 10).reranked_results)
      (((RuleBasedReranker.rerank msCexSearch msCexCut "q" c9WitnessCands
          10).reranked_results).map
        (ruleUpd msCexSearch "q" (_extract_keywords msCexCut "q"))) := by
  have h := C9_rule_rerank msCexSearch msCexCut "q" c9WitnessCands 10
    (by intro c hc; fin_cases hc; decide)
    ((RuleBasedReranker.rerank msCexSearch msCexCut "q" c9WitnessCands 10).reranked_results)
    (((RuleBasedReranker.rerank msCexSearch msCexCut "q" c9WitnessCands
        10).reranked_results).map
      (ruleUpd msCexSearch "q" (_extract_keywords msCexCut "q")))
    ((RuleBasedReranker.rerank msCexSearch msCexCut "q"
      ((RuleBasedReranker.rerank msCexSearch msCexCut "q" c9WitnessCands
        10).reranked_results) 10).reranked_results)
    rfl rfl rfl
  exact ⟨by intro c hc; fin_cases hc; decide, h.1⟩
